import Mathlib

/-!
# Date tasks (`src/04-date-tasks.js`)

A shallow embedding of the five functions of `04-date-tasks.js`
(`parseDataFromRfc2822`, `parseDataFromIso8601`, `isLeapYear`,
`timeSpanToString`, `angleBetweenClockHands`) together with the part of the
ECMAScript `Date` object they call.

* A JavaScript time value is `Option Int`: `some t` is the finite time value
  `t` (milliseconds since the epoch), `none` is `NaN`.
* The built-in operations (`new Date`, `getFullYear`, `getUTCHours`,
  `getUTCMinutes`, `toISOString`, `Date.parse`, `String.prototype.slice`)
  follow ECMA-262, section "Date Objects"; the abstract operations keep the
  names of the standard (`Day`, `YearFromTime`, `MakeDay`, `TimeClip`, ...).
* What ECMA-262 leaves to the host (the local time-zone adjustment and the
  parsing of strings outside the standard date-time string format) is a field
  of `Host`.
-/

namespace DateTasks

/-! ## Time values and the calendar (ECMA-262, "Time Values and Time Range") -/

/-- Milliseconds per day. -/
def msPerDay : Int := 86400000

/-- Milliseconds per hour. -/
def msPerHour : Int := 3600000

/-- Milliseconds per minute. -/
def msPerMinute : Int := 60000

/-- Milliseconds per second. -/
def msPerSecond : Int := 1000

/-- Largest magnitude of a time value: 8.64e15 ms (100 000 000 days). -/
def maxTime : Int := 8640000000000000

/-- Day number of a time value: `floor(t / msPerDay)`. -/
def Day (t : Int) : Int := t / msPerDay

/-- Milliseconds elapsed within the day: `t modulo msPerDay`. -/
def TimeWithinDay (t : Int) : Int := t % msPerDay

/-- Number of days of year `y` (365 or 366), by the Gregorian rule. -/
def DaysInYear (y : Int) : Int :=
  if y % 4 ≠ 0 then 365
  else if y % 100 ≠ 0 then 366
  else if y % 400 ≠ 0 then 365
  else 366

/-- Day number of the first day of year `y`. -/
def DayFromYear (y : Int) : Int :=
  365 * (y - 1970) + (y - 1969) / 4 - (y - 1901) / 100 + (y - 1601) / 400

/-- Time value of the start of year `y`. -/
def TimeFromYear (y : Int) : Int := msPerDay * DayFromYear y

/-- The year containing day number `d`: an estimate from the mean length of
the Gregorian year, corrected by at most one year (see `yearFromDay_spec`). -/
def yearFromDay (d : Int) : Int :=
  let y0 := 1970 + (d * 400) / 146097
  if d < DayFromYear y0 then y0 - 1
  else if DayFromYear (y0 + 1) ≤ d then y0 + 1
  else y0

/-- The year of a time value: the largest `y` with `TimeFromYear y ≤ t`
(`YearFromTime_spec`, `YearFromTime_largest`). -/
def YearFromTime (t : Int) : Int := yearFromDay (Day t)

/-- Leap-year flag of the year of `t`: 1 in a leap year, else 0. -/
def InLeapYear (t : Int) : Int :=
  if DaysInYear (YearFromTime t) = 366 then 1 else 0

/-- Day number of `t` within its year, from 0. -/
def DayWithinYear (t : Int) : Int := Day t - DayFromYear (YearFromTime t)

/-- Month of a time value, 0 = January .. 11 = December. -/
def MonthFromTime (t : Int) : Int :=
  let d := DayWithinYear t
  let l := InLeapYear t
  if d < 31 then 0
  else if d < 59 + l then 1
  else if d < 90 + l then 2
  else if d < 120 + l then 3
  else if d < 151 + l then 4
  else if d < 181 + l then 5
  else if d < 212 + l then 6
  else if d < 243 + l then 7
  else if d < 273 + l then 8
  else if d < 304 + l then 9
  else if d < 334 + l then 10
  else 11

/-- Day of the month of a time value, from 1. -/
def DateFromTime (t : Int) : Int :=
  let d := DayWithinYear t
  let l := InLeapYear t
  let m := MonthFromTime t
  if m = 0 then d + 1
  else if m = 1 then d - 30
  else if m = 2 then d - 58 - l
  else if m = 3 then d - 89 - l
  else if m = 4 then d - 119 - l
  else if m = 5 then d - 150 - l
  else if m = 6 then d - 180 - l
  else if m = 7 then d - 211 - l
  else if m = 8 then d - 242 - l
  else if m = 9 then d - 272 - l
  else if m = 10 then d - 303 - l
  else d - 333 - l

/-- Hour of the day, 0..23. -/
def HourFromTime (t : Int) : Int := (t / msPerHour) % 24

/-- Minute of the hour, 0..59. -/
def MinFromTime (t : Int) : Int := (t / msPerMinute) % 60

/-- Second of the minute, 0..59. -/
def SecFromTime (t : Int) : Int := (t / msPerSecond) % 60

/-- Millisecond of the second, 0..999. -/
def msFromTime (t : Int) : Int := t % msPerSecond

/-- Milliseconds of a time of day given by its fields. -/
def MakeTime (hour min sec ms : Int) : Int :=
  hour * msPerHour + min * msPerMinute + sec * msPerSecond + ms

/-- Days of a year that precede month `m` (0..11); `l` is the leap flag. -/
def daysBeforeMonth (l m : Int) : Int :=
  if m = 0 then 0
  else if m = 1 then 31
  else if m = 2 then 59 + l
  else if m = 3 then 90 + l
  else if m = 4 then 120 + l
  else if m = 5 then 151 + l
  else if m = 6 then 181 + l
  else if m = 7 then 212 + l
  else if m = 8 then 243 + l
  else if m = 9 then 273 + l
  else if m = 10 then 304 + l
  else 334 + l

/-- Day number of the calendar date `year`, `month` (0 = January; months
outside 0..11 carry into the year), `date` (1 = first of the month). -/
def MakeDay (year month date : Int) : Int :=
  let ym := year + month / 12
  let mn := month % 12
  let l : Int := if DaysInYear ym = 366 then 1 else 0
  DayFromYear ym + daysBeforeMonth l mn + date - 1

/-- Time value of day number `day` and time of day `time`. -/
def MakeDate (day time : Int) : Int := day * msPerDay + time

/-- Number of days of month `month` (1 = January .. 12) of year `year`. -/
def daysInMonth (year : Int) (month : Nat) : Nat :=
  if month = 2 then (if DaysInYear year = 366 then 29 else 28)
  else if month = 4 ∨ month = 6 ∨ month = 9 ∨ month = 11 then 30
  else 31

/-- A JavaScript time value: `none` is `NaN`. -/
abbrev TimeValue := Option Int

/-- A time value outside the range of `Date` becomes `NaN`. -/
def TimeClip (time : TimeValue) : TimeValue :=
  match time with
  | none => none
  | some t => if |t| > maxTime then none else some t

/-! ## The host and the `Date` object -/

/-- What ECMA-262 leaves to the implementation: the local time-zone
adjustment `LocalTZA(t, isUTC)` in milliseconds, and the result of
`Date.parse` on a string that is not in the standard date-time string format
(`none` is `NaN`). -/
structure Host where
  /-- Offset of local time from UTC in ms at `t`; `t` is a UTC time value when
  the flag is true and a local one when it is false. -/
  localTZA : Int → Bool → Int
  /-- Implementation-defined fallback of `Date.parse`. -/
  parseImpl : String → Option Int

/-- Local time of a UTC time value. -/
def LocalTime (H : Host) (t : Int) : Int := t + H.localTZA t true

/-- UTC time value of a local time. -/
def UTC (H : Host) (t : Int) : Int := t - H.localTZA t false

/-- A host in the UTC zone that recognises no string beyond the standard
date-time string format. -/
def utcHost : Host := ⟨fun _ _ => 0, fun _ => none⟩

/-- A host one hour east of UTC (no daylight saving) that recognises no
string beyond the standard date-time string format. -/
def plusOneHost : Host := ⟨fun _ _ => 3600000, fun _ => none⟩

/-- A `Date` object: its `[[DateValue]]`. -/
structure JSDate where
  /-- The time value; `none` for an invalid date. -/
  tv : TimeValue
deriving DecidableEq

/-- Errors a built-in can throw. -/
inductive JSError where
  /-- `RangeError: Invalid time value`. -/
  | rangeError
deriving DecidableEq

/-- JavaScript `new Date(value)` for `value` a `Date` object or an integral
Number: `value` is the time value it carries. -/
def newDate (value : TimeValue) : JSDate := ⟨TimeClip value⟩

/-- JavaScript `date.getFullYear()`: the year in local time, `NaN` for an
invalid date. -/
def getFullYear (H : Host) (d : JSDate) : Option Int :=
  d.tv.map fun t => YearFromTime (LocalTime H t)

/-- JavaScript `date.getUTCHours()`. -/
def getUTCHours (d : JSDate) : Option Int := d.tv.map HourFromTime

/-- JavaScript `date.getUTCMinutes()`. -/
def getUTCMinutes (d : JSDate) : Option Int := d.tv.map MinFromTime

/-- JavaScript `new Date(year, month, date, hours, minutes, seconds, ms)` for
integral fields and a `year` outside 0..99 (which the constructor reads as
`1900 + year`): the fields are read in local time. -/
def newDateOfFields (H : Host) (year month date hours minutes seconds ms : Int) : JSDate :=
  ⟨TimeClip (some (UTC H (MakeDate (MakeDay year month date)
    (MakeTime hours minutes seconds ms))))⟩

/-- JavaScript `Date.UTC(year, month, date, hours, minutes)`: a time value. -/
def dateUTC (year month date hours minutes : Int) : TimeValue :=
  TimeClip (some (MakeDate (MakeDay year month date) (MakeTime hours minutes 0 0)))

/-! ## Strings: decimal fields, `toISOString`, `slice` -/

/-- The character of a decimal digit `d < 10`. -/
def digitChar (d : Nat) : Char := Char.ofNat (48 + d)

/-- The `w` low-order decimal digits of `n`, most significant first: the
decimal representation of `n` padded with zeros to width `w` when
`n < 10 ^ w`, which holds at every use. -/
def padDigits : Nat → Nat → List Char
  | 0, _ => []
  | w + 1, n => padDigits w (n / 10) ++ [digitChar (n % 10)]

/-- The year of an ISO string: four digits for the years 0..9999, otherwise a
sign and six digits. -/
def isoYearChars (y : Int) : List Char :=
  if 0 ≤ y ∧ y ≤ 9999 then padDigits 4 y.toNat
  else (if y < 0 then '-' else '+') :: padDigits 6 y.natAbs

/-- The characters `YYYY-MM-DDTHH:mm:ss.sssZ` of a finite time value. -/
def isoChars (t : Int) : List Char :=
  isoYearChars (YearFromTime t) ++ '-' :: (padDigits 2 (MonthFromTime t + 1).toNat
    ++ '-' :: (padDigits 2 (DateFromTime t).toNat
    ++ 'T' :: (padDigits 2 (HourFromTime t).toNat
    ++ ':' :: (padDigits 2 (MinFromTime t).toNat
    ++ ':' :: (padDigits 2 (SecFromTime t).toNat
    ++ '.' :: (padDigits 3 (msFromTime t).toNat ++ ['Z']))))))

/-- JavaScript `date.toISOString()`: throws a `RangeError` on an invalid
date. -/
def toISOString (d : JSDate) : Except JSError String :=
  match d.tv with
  | none => .error .rangeError
  | some t => .ok (String.mk (isoChars t))

/-- JavaScript `s.slice(start, stop)`: a negative index counts from the end,
both indices are clamped to the string. -/
def slice (s : String) (start stop : Int) : String :=
  let len : Int := s.data.length
  let lo := if start < 0 then max (len + start) 0 else min start len
  let hi := if stop < 0 then max (len + stop) 0 else min stop len
  String.mk ((s.data.drop lo.toNat).take (max (hi - lo) 0).toNat)

/-! ## `Date.parse`: the date-time string format of ECMA-262 -/

/-- Value of a decimal digit character. -/
def digitVal (c : Char) : Option Nat :=
  if 48 ≤ c.toNat ∧ c.toNat ≤ 57 then some (c.toNat - 48) else none

/-- Reads exactly `w` decimal digits; `acc` is the value read so far. -/
def takeDigits : Nat → Nat → List Char → Option (Nat × List Char)
  | 0, acc, cs => some (acc, cs)
  | _ + 1, _, [] => none
  | w + 1, acc, c :: cs =>
    match digitVal c with
    | some d => takeDigits w (10 * acc + d) cs
    | none => none

/-- The fields read from a string in the date-time string format. `offset` is
the stated zone in minutes east of UTC (`Z` and the date-only forms are
`some 0`); `none` means a date-time without zone, which is local time. -/
structure IsoFields where
  /-- Calendar year. -/
  year : Int
  /-- Month, 1..12. -/
  month : Nat
  /-- Day of the month, from 1. -/
  day : Nat
  /-- Hour, 0..24. -/
  hour : Nat
  /-- Minute. -/
  min : Nat
  /-- Second. -/
  sec : Nat
  /-- Millisecond. -/
  ms : Nat
  /-- Zone in minutes east of UTC, if stated. -/
  offset : Option Int
deriving DecidableEq

/-- Year: `YYYY`, or an expanded year `+YYYYYY` / `-YYYYYY` (`-000000` is not
allowed). -/
def isoYear (cs : List Char) : Option (Int × List Char) :=
  match cs with
  | [] => none
  | c :: rest =>
    if c = '+' then
      match takeDigits 6 0 rest with
      | some (n, r) => some ((n : Int), r)
      | none => none
    else if c = '-' then
      match takeDigits 6 0 rest with
      | some (n, r) => if n = 0 then none else some (-(n : Int), r)
      | none => none
    else
      match takeDigits 4 0 cs with
      | some (n, r) => some ((n : Int), r)
      | none => none

/-- Date: `YYYY`, `YYYY-MM` or `YYYY-MM-DD`; absent fields are 1. -/
def isoDate (cs : List Char) : Option (Int × Nat × Nat × List Char) :=
  match isoYear cs with
  | none => none
  | some (y, r1) =>
    match r1 with
    | [] => some (y, 1, 1, [])
    | c1 :: r2 =>
      if c1 = '-' then
        match takeDigits 2 0 r2 with
        | none => none
        | some (m, r3) =>
          match r3 with
          | [] => some (y, m, 1, [])
          | c2 :: r4 =>
            if c2 = '-' then
              match takeDigits 2 0 r4 with
              | none => none
              | some (d, r5) => some (y, m, d, r5)
            else some (y, m, 1, r3)
      else some (y, 1, 1, r1)

/-- Seconds and milliseconds after `HH:mm`: nothing, `:ss` or `:ss.sss`. -/
def isoSeconds (cs : List Char) : Option (Nat × Nat × List Char) :=
  match cs with
  | [] => some (0, 0, [])
  | c :: r =>
    if c = ':' then
      match takeDigits 2 0 r with
      | none => none
      | some (s, r1) =>
        match r1 with
        | [] => some (s, 0, [])
        | c1 :: r2 =>
          if c1 = '.' then
            match takeDigits 3 0 r2 with
            | none => none
            | some (f, r3) => some (s, f, r3)
          else some (s, 0, r1)
    else some (0, 0, cs)

/-- Zone at the end of the string: nothing (local time), `Z`, or `+HH:mm` /
`-HH:mm` with `HH` in 00..23 and `mm` in 00..59. -/
def isoOffset (cs : List Char) : Option (Option Int) :=
  match cs with
  | [] => some none
  | c :: r =>
    if c = 'Z' then (if r = [] then some (some 0) else none)
    else if c = '+' ∨ c = '-' then
      match takeDigits 2 0 r with
      | none => none
      | some (oh, r1) =>
        match r1 with
        | [] => none
        | c1 :: r2 =>
          if c1 = ':' then
            match takeDigits 2 0 r2 with
            | none => none
            | some (om, r3) =>
              if r3 = [] ∧ oh ≤ 23 ∧ om ≤ 59 then
                some (some ((if c = '-' then -1 else 1) * ((oh : Int) * 60 + om)))
              else none
          else none
    else none

/-- Reads a string in the date-time string format: a date, alone or
followed by `T`, a time `HH:mm`, `HH:mm:ss` or `HH:mm:ss.sss`, and an optional
zone. -/
def parseIso (cs : List Char) : Option IsoFields :=
  match isoDate cs with
  | none => none
  | some (y, m, d, r) =>
    match r with
    | [] => some ⟨y, m, d, 0, 0, 0, 0, some 0⟩
    | c :: r1 =>
      if c = 'T' then
        match takeDigits 2 0 r1 with
        | none => none
        | some (h, r2) =>
          match r2 with
          | [] => none
          | c1 :: r3 =>
            if c1 = ':' then
              match takeDigits 2 0 r3 with
              | none => none
              | some (mi, r4) =>
                match isoSeconds r4 with
                | none => none
                | some (s, f, r5) =>
                  match isoOffset r5 with
                  | none => none
                  | some z => some ⟨y, m, d, h, mi, s, f, z⟩
            else none
      else none

/-- The element values are legal: a day that exists in the calendar and a
time of day up to `24:00:00.000`. -/
def IsoFields.legal (f : IsoFields) : Bool :=
  decide (1 ≤ f.month ∧ f.month ≤ 12 ∧ 1 ≤ f.day ∧ f.day ≤ daysInMonth f.year f.month
    ∧ f.min ≤ 59 ∧ f.sec ≤ 59
    ∧ (f.hour ≤ 23 ∨ (f.hour = 24 ∧ f.min = 0 ∧ f.sec = 0 ∧ f.ms = 0)))

/-- The time value denoted by legal fields: the calendar date-time, read in
local time when no zone is stated and otherwise moved by the stated zone. -/
def IsoFields.value (H : Host) (f : IsoFields) : Int :=
  let t := MakeDate (MakeDay f.year ((f.month : Int) - 1) f.day)
    (MakeTime f.hour f.min f.sec f.ms)
  match f.offset with
  | none => UTC H t
  | some z => t - z * msPerMinute

/-- JavaScript `Date.parse(s)`: a string in the date-time string format with
legal element values denotes its time value; on every other string the result
is the one of the host (ECMA-262: "implementation-specific"). -/
def dateParse (H : Host) (s : String) : Option Int :=
  match parseIso s.data with
  | some f => if f.legal then some (f.value H) else H.parseImpl s
  | none => H.parseImpl s

/-- JavaScript `new Date(value)` for a string `value`. -/
def newDateOfString (H : Host) (value : String) : JSDate :=
  ⟨TimeClip (dateParse H value)⟩

/-! ## The functions of `04-date-tasks.js` -/

/-- Source `parseDataFromRfc2822`: `return new Date(value);`. -/
def parseDataFromRfc2822 (H : Host) (value : String) : Except JSError JSDate :=
  .ok (newDateOfString H value)

/-- Source `parseDataFromIso8601`: `return new Date(value);`. -/
def parseDataFromIso8601 (H : Host) (value : String) : Except JSError JSDate :=
  .ok (newDateOfString H value)

/-- Source `isLeapYear`. The operator `%` of JavaScript is the remainder of the
truncating division (`Int.tmod`); on a `NaN` year every `=== 0` is false. -/
def isLeapYear (H : Host) (date : TimeValue) : Bool :=
  let d := newDate date
  match getFullYear H d with
  | none => false
  | some year =>
    if (year.tmod 4 = 0 ∧ year.tmod 100 ≠ 0) ∨ year.tmod 400 = 0 then true
    else false

/-- The condition of the `if` in source `isLeapYear`, as a function of the
year: `(year % 4 === 0 && year % 100 !== 0) || year % 400 === 0` with the
JavaScript remainder. -/
def leapYearRule (year : Int) : Bool :=
  if (year.tmod 4 = 0 ∧ year.tmod 100 ≠ 0) ∨ year.tmod 400 = 0 then true else false

/-- JavaScript `a - b` on the time values of two dates: `NaN` when one of
them is `NaN`. (The difference of two finite time values has magnitude at most
1.728e16; a double holds it exactly up to 2^53 and rounds it monotonically
above, where it exceeds 8.64e15 before and after rounding, so that `TimeClip`
of the exact difference is `TimeClip` of the rounded one.) -/
def numSub (a b : TimeValue) : TimeValue :=
  match a, b with
  | some x, some y => some (x - y)
  | _, _ => none

/-- Source `timeSpanToString`. -/
def timeSpanToString (startDate endDate : TimeValue) : Except JSError String :=
  let sDate := newDate startDate
  let eDate := newDate endDate
  let difference := numSub eDate.tv sDate.tv
  let differenceDate := newDate difference
  match toISOString differenceDate with
  | .error e => .error e
  | .ok differenceIso => .ok (slice differenceIso 11 (-1))

/-- Source `angleBetweenClockHands`, over an ordered field `K` in which the
constant `Math.PI` is `pi`. The degree values are multiples of one half and
exact; on an invalid date every intermediate value and the result are `NaN`
(`none`). -/
def angleBetweenClockHands {K : Type} [LinearOrderedField K] (pi : K)
    (date : TimeValue) : Option K :=
  match getUTCMinutes (newDate date), getUTCHours (newDate date) with
  | some minutes, some hours0 =>
    let minAngleGrau : K := (minutes : K) * 6
    let hours : Int := if hours0 > 12 then hours0 - 12 else hours0
    let hourAngleGrau : K := (hours : K) * 30 + (minutes : K) * (1 / 2)
    if minAngleGrau = hourAngleGrau then some 0
    else
      let dividerOne := if minAngleGrau < hourAngleGrau then minAngleGrau else hourAngleGrau
      let dividerTwo := if minAngleGrau < hourAngleGrau then hourAngleGrau else minAngleGrau
      let partOne := dividerOne
      let angleOne := dividerTwo - dividerOne
      let partTwo := 360 - dividerTwo
      let angleTwo := partOne + partTwo
      let angle :=
        if angleOne > angleTwo then angleTwo
        else if angleOne < angleTwo then angleOne
        else angleOne
      some (angle * (pi / 180))
  | _, _ => none

/-! ## The strings the claims speak of -/

/-- The string `HH:mm:ss.sss` of the spec: the four fields in decimal, padded
with zeros to the widths 2, 2, 2 and 3. -/
def hmsString (hh mm ss sss : Nat) : String :=
  String.mk (padDigits 2 hh ++ ':' :: (padDigits 2 mm ++ ':' :: (padDigits 2 ss
    ++ '.' :: padDigits 3 sss)))

/-- The characters `YYYY-MM-DDTHH:mm:ss` of the given fields, followed by the
zone characters `zone`. -/
def isoDateTimeChars (y mo d h mi s : Nat) (zone : List Char) : List Char :=
  padDigits 4 y ++ '-' :: (padDigits 2 mo ++ '-' :: (padDigits 2 d
    ++ 'T' :: (padDigits 2 h ++ ':' :: (padDigits 2 mi ++ ':' :: (padDigits 2 s ++ zone)))))

/-- The zone `+hh:mm`, or `-hh:mm` when `neg` is set. -/
def offsetChars (neg : Bool) (oh om : Nat) : List Char :=
  (if neg then '-' else '+') :: (padDigits 2 oh ++ ':' :: padDigits 2 om)

/-- The stated zone in milliseconds east of UTC. -/
def offsetMs (neg : Bool) (oh om : Nat) : Int :=
  (if neg then -1 else 1) * ((oh : Int) * 60 + om) * msPerMinute

/-! ## The calendar operations meet their specification -/

theorem DayFromYear_mono (a b : Int) (h : a ≤ b) : DayFromYear a ≤ DayFromYear b := by
  unfold DayFromYear; omega

theorem DayFromYear_succ (y : Int) : DayFromYear (y + 1) = DayFromYear y + DaysInYear y := by
  unfold DayFromYear DaysInYear
  split_ifs <;> omega

theorem yearFromDay_spec (d : Int) :
    DayFromYear (yearFromDay d) ≤ d ∧ d < DayFromYear (yearFromDay d + 1) := by
  unfold yearFromDay
  simp only
  generalize hy : 1970 + d * 400 / 146097 = y0
  have e1 : y0 - 1 + 1 = y0 := by omega
  split_ifs with h1 h2
  · rw [e1]; unfold DayFromYear at *; omega
  · unfold DayFromYear at *; omega
  · unfold DayFromYear at *; omega

theorem yearFromDay_unique (d y : Int) (h1 : DayFromYear y ≤ d)
    (h2 : d < DayFromYear (y + 1)) : yearFromDay d = y := by
  have hs := yearFromDay_spec d
  by_contra hne
  rcases lt_or_gt_of_ne hne with hlt | hgt
  · have := DayFromYear_mono (yearFromDay d + 1) y (by omega)
    omega
  · have := DayFromYear_mono (y + 1) (yearFromDay d) (by omega)
    omega

/-- The computed year is the one ECMA-262 defines: the year whose span of
time contains `t`. -/
theorem YearFromTime_spec (t : Int) :
    TimeFromYear (YearFromTime t) ≤ t ∧ t < TimeFromYear (YearFromTime t + 1) := by
  have hs := yearFromDay_spec (Day t)
  unfold TimeFromYear YearFromTime
  unfold Day msPerDay at *
  omega

/-- The computed year is the largest `y` with `TimeFromYear y ≤ t`. -/
theorem YearFromTime_largest (t y : Int) (h : TimeFromYear y ≤ t) : y ≤ YearFromTime t := by
  have hs := YearFromTime_spec t
  by_contra hlt
  have := DayFromYear_mono (YearFromTime t + 1) y (by omega)
  unfold TimeFromYear msPerDay at *
  omega

theorem DayWithinYear_range (t : Int) :
    0 ≤ DayWithinYear t ∧ DayWithinYear t < DaysInYear (YearFromTime t) := by
  have hs := yearFromDay_spec (Day t)
  rw [DayFromYear_succ] at hs
  unfold DayWithinYear YearFromTime
  omega

theorem DaysInYear_cases (y : Int) : DaysInYear y = 365 ∨ DaysInYear y = 366 := by
  unfold DaysInYear; split_ifs <;> simp

theorem InLeapYear_cases (t : Int) :
    (InLeapYear t = 0 ∧ DaysInYear (YearFromTime t) = 365) ∨
    (InLeapYear t = 1 ∧ DaysInYear (YearFromTime t) = 366) := by
  unfold InLeapYear
  rcases DaysInYear_cases (YearFromTime t) with h | h <;> simp [h]

/-- The month table, read as a relation between the day within the year and
the month. -/
theorem MonthFromTime_cases (t : Int) :
    (MonthFromTime t = 0 ∧ DayWithinYear t < 31) ∨
    (MonthFromTime t = 1 ∧ 31 ≤ DayWithinYear t ∧ DayWithinYear t < 59 + InLeapYear t) ∨
    (MonthFromTime t = 2 ∧ 59 + InLeapYear t ≤ DayWithinYear t
      ∧ DayWithinYear t < 90 + InLeapYear t) ∨
    (MonthFromTime t = 3 ∧ 90 + InLeapYear t ≤ DayWithinYear t
      ∧ DayWithinYear t < 120 + InLeapYear t) ∨
    (MonthFromTime t = 4 ∧ 120 + InLeapYear t ≤ DayWithinYear t
      ∧ DayWithinYear t < 151 + InLeapYear t) ∨
    (MonthFromTime t = 5 ∧ 151 + InLeapYear t ≤ DayWithinYear t
      ∧ DayWithinYear t < 181 + InLeapYear t) ∨
    (MonthFromTime t = 6 ∧ 181 + InLeapYear t ≤ DayWithinYear t
      ∧ DayWithinYear t < 212 + InLeapYear t) ∨
    (MonthFromTime t = 7 ∧ 212 + InLeapYear t ≤ DayWithinYear t
      ∧ DayWithinYear t < 243 + InLeapYear t) ∨
    (MonthFromTime t = 8 ∧ 243 + InLeapYear t ≤ DayWithinYear t
      ∧ DayWithinYear t < 273 + InLeapYear t) ∨
    (MonthFromTime t = 9 ∧ 273 + InLeapYear t ≤ DayWithinYear t
      ∧ DayWithinYear t < 304 + InLeapYear t) ∨
    (MonthFromTime t = 10 ∧ 304 + InLeapYear t ≤ DayWithinYear t
      ∧ DayWithinYear t < 334 + InLeapYear t) ∨
    (MonthFromTime t = 11 ∧ 334 + InLeapYear t ≤ DayWithinYear t) := by
  generalize hm : MonthFromTime t = m
  unfold MonthFromTime at hm
  simp only at hm
  generalize DayWithinYear t = d at *
  generalize InLeapYear t = l at *
  by_cases h0 : d < 31
  · rw [if_pos h0] at hm; subst hm; simp; omega
  rw [if_neg h0] at hm
  by_cases h1 : d < 59 + l
  · rw [if_pos h1] at hm; subst hm; simp; omega
  rw [if_neg h1] at hm
  by_cases h2 : d < 90 + l
  · rw [if_pos h2] at hm; subst hm; simp; omega
  rw [if_neg h2] at hm
  by_cases h3 : d < 120 + l
  · rw [if_pos h3] at hm; subst hm; simp; omega
  rw [if_neg h3] at hm
  by_cases h4 : d < 151 + l
  · rw [if_pos h4] at hm; subst hm; simp; omega
  rw [if_neg h4] at hm
  by_cases h5 : d < 181 + l
  · rw [if_pos h5] at hm; subst hm; simp; omega
  rw [if_neg h5] at hm
  by_cases h6 : d < 212 + l
  · rw [if_pos h6] at hm; subst hm; simp; omega
  rw [if_neg h6] at hm
  by_cases h7 : d < 243 + l
  · rw [if_pos h7] at hm; subst hm; simp; omega
  rw [if_neg h7] at hm
  by_cases h8 : d < 273 + l
  · rw [if_pos h8] at hm; subst hm; simp; omega
  rw [if_neg h8] at hm
  by_cases h9 : d < 304 + l
  · rw [if_pos h9] at hm; subst hm; simp; omega
  rw [if_neg h9] at hm
  by_cases h10 : d < 334 + l
  · rw [if_pos h10] at hm; subst hm; simp; omega
  rw [if_neg h10] at hm
  subst hm; simp; omega

theorem MonthFromTime_range (t : Int) : 0 ≤ MonthFromTime t ∧ MonthFromTime t ≤ 11 := by
  have hm := MonthFromTime_cases t
  omega

/-- The calendar fields of a time value give back its day number. -/
theorem MakeDay_fields (t : Int) :
    MakeDay (YearFromTime t) (MonthFromTime t) (DateFromTime t) = Day t := by
  have hl := InLeapYear_cases t
  have hm := MonthFromTime_cases t
  unfold MakeDay DateFromTime daysBeforeMonth
  simp only
  have hd : DayWithinYear t = Day t - DayFromYear (YearFromTime t) := rfl
  generalize DayWithinYear t = d at *
  generalize InLeapYear t = l at *
  generalize MonthFromTime t = m at *
  rcases hm with h | h | h | h | h | h | h | h | h | h | h | h <;>
    rcases hl with h2 | h2 <;>
    · obtain ⟨rfl, -⟩ := h
      obtain ⟨rfl, hn⟩ := h2
      norm_num [hn]
      omega

/-- The day of the month lies in the month. -/
theorem DateFromTime_range (t : Int) :
    1 ≤ DateFromTime t ∧
    (DateFromTime t).toNat ≤ daysInMonth (YearFromTime t) (MonthFromTime t + 1).toNat := by
  have hl := InLeapYear_cases t
  have hm := MonthFromTime_cases t
  have hr := DayWithinYear_range t
  unfold DateFromTime daysInMonth
  simp only
  generalize DayWithinYear t = d at *
  generalize InLeapYear t = l at *
  generalize MonthFromTime t = m at *
  generalize DaysInYear (YearFromTime t) = n at *
  rcases hm with h | h | h | h | h | h | h | h | h | h | h | h <;>
    rcases hl with h2 | h2 <;>
    · obtain ⟨rfl, h3⟩ := h
      obtain ⟨rfl, rfl⟩ := h2
      norm_num
      omega

/-! ## Helper lemmas on the built-ins -/

theorem tmod_eq_zero_iff (a b : Int) : a.tmod b = 0 ↔ a % b = 0 := by
  rw [← Int.dvd_iff_tmod_eq_zero, Int.dvd_iff_emod_eq_zero]

theorem TimeClip_valid (t : Int) (h : |t| ≤ maxTime) : TimeClip (some t) = some t := by
  simp [TimeClip, not_lt.mpr h]

theorem TimeClip_invalid (t : Int) (h : maxTime < |t|) : TimeClip (some t) = none := by
  simp [TimeClip, h]

/-! ## The ISO string and `slice` -/

theorem YearFromTime_lt (t y : Int) (h : t < TimeFromYear y) : YearFromTime t < y := by
  have hs := YearFromTime_spec t
  by_contra hge
  have := DayFromYear_mono y (YearFromTime t) (by omega)
  unfold TimeFromYear msPerDay at *
  omega

/-- Within the years 0..9999 the ISO string has 24 characters and
`slice(11, -1)` is its time of day. -/
theorem slice_isoChars (t : Int) (h0 : -62167219200000 ≤ t) (h1 : t < 253402300800000) :
    slice (String.mk (isoChars t)) 11 (-1) =
      hmsString (HourFromTime t).toNat (MinFromTime t).toNat (SecFromTime t).toNat
        (msFromTime t).toNat := by
  have hy0 : 0 ≤ YearFromTime t := YearFromTime_largest t 0 (by
    have : TimeFromYear 0 = -62167219200000 := by decide
    omega)
  have hy1 : YearFromTime t < 10000 := YearFromTime_lt t 10000 (by
    have : TimeFromYear 10000 = 253402300800000 := by decide
    omega)
  have hy : 0 ≤ YearFromTime t ∧ YearFromTime t ≤ 9999 := ⟨hy0, by omega⟩
  simp [slice, isoChars, isoYearChars, hy, padDigits, hmsString]

/-! ## `timeSpanToString` on a difference within the years 0..9999 -/

/-- On two valid instants whose difference `d = end - start` lies in the
years 0..9999 counted from the epoch, the result is the time of day of the
time value `d`. -/
theorem timeSpanToString_fields (s e : Int) (hs : |s| ≤ maxTime) (he : |e| ≤ maxTime)
    (h0 : -62167219200000 ≤ e - s) (h1 : e - s < 253402300800000) :
    timeSpanToString (some s) (some e) =
      .ok (hmsString (HourFromTime (e - s)).toNat (MinFromTime (e - s)).toNat
        (SecFromTime (e - s)).toNat (msFromTime (e - s)).toNat) := by
  have hd : |e - s| ≤ maxTime := by
    unfold maxTime
    rw [abs_le]
    omega
  simp only [timeSpanToString, newDate, TimeClip_valid s hs, TimeClip_valid e he, numSub,
    TimeClip_valid (e - s) hd, toISOString, slice_isoChars (e - s) h0 h1]

/-! ## `angleBetweenClockHands`: the degree value -/

theorem HourFromTime_range (t : Int) : 0 ≤ HourFromTime t ∧ HourFromTime t ≤ 23 := by
  unfold HourFromTime; omega

theorem MinFromTime_range (t : Int) : 0 ≤ MinFromTime t ∧ MinFromTime t ≤ 59 := by
  unfold MinFromTime; omega

/-- The selection of the smaller of the two arcs between the hand angles `A`
and `B`, as the source writes it, is `min |B - A| (360 - |B - A|)`. -/
theorem smaller_arc {K : Type} [LinearOrderedField K] (A B : K) :
    (if (if A < B then B else A) - (if A < B then A else B)
        > (if A < B then A else B) + (360 - (if A < B then B else A)) then
      (if A < B then A else B) + (360 - (if A < B then B else A))
    else if (if A < B then B else A) - (if A < B then A else B)
        < (if A < B then A else B) + (360 - (if A < B then B else A)) then
      (if A < B then B else A) - (if A < B then A else B)
    else (if A < B then B else A) - (if A < B then A else B))
    = min |B - A| (360 - |B - A|) := by
  by_cases h : A < B
  · simp only [if_pos h, abs_of_pos (sub_pos.mpr h), min_def]
    split_ifs <;> linarith
  · have h2 : B - A ≤ 0 := by linarith [not_lt.mp h]
    simp only [if_neg h, abs_of_nonpos h2, min_def]
    split_ifs <;> linarith

theorem arc_result {K : Type} [LinearOrderedField K] (pi A B : K) :
    (if A = B then some 0 else some (min |B - A| (360 - |B - A|) * (pi / 180)))
      = some (pi / 180 * min |B - A| (360 - |B - A|)) := by
  split_ifs with h
  · subst h; simp
  · rw [mul_comm]

/-- The degree value the source computes, in terms of the hour and minute
read from the date. -/
theorem angleBetweenClockHands_degrees {K : Type} [LinearOrderedField K] (pi : K)
    (t : Int) (ht : |t| ≤ maxTime) :
    angleBetweenClockHands pi (some t) = some (pi / 180 *
      min |(((HourFromTime t % 12 : Int) : K) * 30 + (MinFromTime t : K) * (1 / 2))
            - (MinFromTime t : K) * 6|
        (360 - |(((HourFromTime t % 12 : Int) : K) * 30 + (MinFromTime t : K) * (1 / 2))
            - (MinFromTime t : K) * 6|)) := by
  have hh := HourFromTime_range t
  have hm := MinFromTime_range t
  simp only [angleBetweenClockHands, newDate, TimeClip_valid t ht, getUTCMinutes, getUTCHours,
    Option.map_some']
  generalize HourFromTime t = h at *
  generalize MinFromTime t = m at *
  have hm0 : (0 : K) ≤ (m : K) := by exact_mod_cast hm.1
  have hm1 : (m : K) ≤ 59 := by exact_mod_cast hm.2
  rw [smaller_arc]
  by_cases h12 : h = 12
  · subst h12
    have hne : ¬ ((m : K) * 6 = ((12 : Int) : K) * 30 + (m : K) * (1 / 2)) := by
      intro h; push_cast at h; linarith
    have e1 : |((12 : Int) : K) * 30 + (m : K) * (1 / 2) - (m : K) * 6|
        = 360 - (m : K) * (11 / 2) := by
      rw [abs_of_nonneg (by push_cast; linarith)]; push_cast; ring
    have e2 : |(((12 % 12 : Int) : Int) : K) * 30 + (m : K) * (1 / 2) - (m : K) * 6|
        = (m : K) * (11 / 2) := by
      rw [abs_of_nonpos (by norm_num; linarith)]; norm_num; ring
    simp only [show ¬ ((12 : Int) > 12) by decide, if_false, if_neg hne, e1, e2]
    rw [mul_comm, min_comm]
    congr 3
    ring
  · have e : (if h > 12 then h - 12 else h) = h % 12 := by
      split_ifs <;> omega
    rw [e]
    exact arc_result pi _ _

/-! ## Decimal fields: reading back what was written -/

theorem digitVal_digitChar (d : Nat) (h : d < 10) : digitVal (digitChar d) = some d := by
  interval_cases d <;> decide

theorem digitChar_ne_plus (d : Nat) (h : d < 10) : digitChar d ≠ '+' := by
  interval_cases d <;> decide

theorem digitChar_ne_minus (d : Nat) (h : d < 10) : digitChar d ≠ '-' := by
  interval_cases d <;> decide

theorem takeDigits_pad2 (n : Nat) (h : n < 100) (rest : List Char) :
    takeDigits 2 0 (padDigits 2 n ++ rest) = some (n, rest) := by
  have h1 : n / 10 % 10 < 10 := Nat.mod_lt _ (by decide)
  have h2 : n % 10 < 10 := Nat.mod_lt _ (by decide)
  simp only [padDigits, takeDigits, List.nil_append, List.cons_append, List.append_assoc,
    digitVal_digitChar _ h1, digitVal_digitChar _ h2]
  congr 2
  omega

theorem takeDigits_pad3 (n : Nat) (h : n < 1000) (rest : List Char) :
    takeDigits 3 0 (padDigits 3 n ++ rest) = some (n, rest) := by
  have h0 : n / 10 / 10 % 10 < 10 := Nat.mod_lt _ (by decide)
  have h1 : n / 10 % 10 < 10 := Nat.mod_lt _ (by decide)
  have h2 : n % 10 < 10 := Nat.mod_lt _ (by decide)
  simp only [padDigits, takeDigits, List.nil_append, List.cons_append, List.append_assoc,
    digitVal_digitChar _ h0, digitVal_digitChar _ h1, digitVal_digitChar _ h2]
  congr 2
  omega

theorem takeDigits_pad4 (n : Nat) (h : n < 10000) (rest : List Char) :
    takeDigits 4 0 (padDigits 4 n ++ rest) = some (n, rest) := by
  have h00 : n / 10 / 10 / 10 % 10 < 10 := Nat.mod_lt _ (by decide)
  have h0 : n / 10 / 10 % 10 < 10 := Nat.mod_lt _ (by decide)
  have h1 : n / 10 % 10 < 10 := Nat.mod_lt _ (by decide)
  have h2 : n % 10 < 10 := Nat.mod_lt _ (by decide)
  simp only [padDigits, takeDigits, List.nil_append, List.cons_append, List.append_assoc,
    digitVal_digitChar _ h00, digitVal_digitChar _ h0, digitVal_digitChar _ h1,
    digitVal_digitChar _ h2]
  congr 2
  omega

theorem takeDigits_pad6 (n : Nat) (h : n < 1000000) (rest : List Char) :
    takeDigits 6 0 (padDigits 6 n ++ rest) = some (n, rest) := by
  have h5 : n / 10 / 10 / 10 / 10 / 10 % 10 < 10 := Nat.mod_lt _ (by decide)
  have h4 : n / 10 / 10 / 10 / 10 % 10 < 10 := Nat.mod_lt _ (by decide)
  have h3 : n / 10 / 10 / 10 % 10 < 10 := Nat.mod_lt _ (by decide)
  have h0 : n / 10 / 10 % 10 < 10 := Nat.mod_lt _ (by decide)
  have h1 : n / 10 % 10 < 10 := Nat.mod_lt _ (by decide)
  have h2 : n % 10 < 10 := Nat.mod_lt _ (by decide)
  simp only [padDigits, takeDigits, List.nil_append, List.cons_append, List.append_assoc,
    digitVal_digitChar _ h5, digitVal_digitChar _ h4, digitVal_digitChar _ h3,
    digitVal_digitChar _ h0, digitVal_digitChar _ h1, digitVal_digitChar _ h2]
  congr 2
  omega

/-- Two strings `HH:mm:ss.sss` of fields within their widths are equal only
when the fields are. -/
theorem hmsString_inj (a b c d a2 b2 c2 d2 : Nat) (ha : a < 100) (hb : b < 100)
    (hc : c < 100) (hd : d < 1000) (ha2 : a2 < 100) (hb2 : b2 < 100) (hc2 : c2 < 100)
    (hd2 : d2 < 1000) (h : hmsString a b c d = hmsString a2 b2 c2 d2) :
    a = a2 ∧ b = b2 ∧ c = c2 ∧ d = d2 := by
  unfold hmsString at h
  have h0 : _ = _ := congrArg String.data h
  simp only at h0
  have e1 := congrArg (takeDigits 2 0) h0
  rw [takeDigits_pad2 a ha, takeDigits_pad2 a2 ha2] at e1
  simp only [Option.some.injEq, Prod.mk.injEq, List.cons.injEq, true_and] at e1
  obtain ⟨ea, e1⟩ := e1
  have e2 := congrArg (takeDigits 2 0) e1
  rw [takeDigits_pad2 b hb, takeDigits_pad2 b2 hb2] at e2
  simp only [Option.some.injEq, Prod.mk.injEq, List.cons.injEq, true_and] at e2
  obtain ⟨eb, e2⟩ := e2
  have e3 := congrArg (takeDigits 2 0) e2
  rw [takeDigits_pad2 c hc, takeDigits_pad2 c2 hc2] at e3
  simp only [Option.some.injEq, Prod.mk.injEq, List.cons.injEq, true_and] at e3
  obtain ⟨ec, e3⟩ := e3
  have e4 := congrArg (takeDigits 3 0) (show padDigits 3 d ++ [] = padDigits 3 d2 ++ [] by
    simpa using e3)
  rw [takeDigits_pad3 d hd, takeDigits_pad3 d2 hd2] at e4
  simp only [Option.some.injEq, Prod.mk.injEq, and_true] at e4
  exact ⟨ea, eb, ec, e4⟩

/-! ## Reading the date-time string format -/

theorem isoYear_pad4 (n : Nat) (h : n < 10000) (rest : List Char) :
    isoYear (padDigits 4 n ++ rest) = some ((n : Int), rest) := by
  have ht := takeDigits_pad4 n h rest
  have hd : n / 10 / 10 / 10 % 10 < 10 := Nat.mod_lt _ (by decide)
  obtain ⟨c, tl, hcs, hc⟩ : ∃ c tl, padDigits 4 n ++ rest = c :: tl
      ∧ c = digitChar (n / 10 / 10 / 10 % 10) := by
    simp [padDigits]
  rw [hcs] at ht ⊢
  unfold isoYear
  simp only [hc ▸ digitChar_ne_plus _ hd, hc ▸ digitChar_ne_minus _ hd, if_false, ht]

theorem isoYear_plus (n : Nat) (h : n < 1000000) (rest : List Char) :
    isoYear ('+' :: (padDigits 6 n ++ rest)) = some ((n : Int), rest) := by
  unfold isoYear
  simp only [if_true, takeDigits_pad6 n h rest]

theorem isoYear_minus (n : Nat) (h : n < 1000000) (h0 : n ≠ 0) (rest : List Char) :
    isoYear ('-' :: (padDigits 6 n ++ rest)) = some (-(n : Int), rest) := by
  unfold isoYear
  simp only [show ¬ ('-' = '+') by decide, if_false, if_true, takeDigits_pad6 n h rest, h0]

/-- The year written by `toISOString` is read back. -/
theorem isoYear_isoYearChars (y : Int) (h0 : -1000000 < y) (h1 : y < 1000000)
    (rest : List Char) : isoYear (isoYearChars y ++ rest) = some (y, rest) := by
  unfold isoYearChars
  by_cases hy : 0 ≤ y ∧ y ≤ 9999
  · rw [if_pos hy, isoYear_pad4 _ (by omega)]
    congr 2
    omega
  · rw [if_neg hy]
    by_cases hneg : y < 0
    · rw [if_pos hneg, List.cons_append, isoYear_minus _ (by omega) (by omega)]
      congr 2
      omega
    · rw [if_neg hneg, List.cons_append, isoYear_plus _ (by omega)]
      congr 2
      omega

theorem isoDate_full (cs rest : List Char) (y : Int) (m d : Nat) (hm : m < 100)
    (hd : d < 100)
    (hy : isoYear cs = some (y, '-' :: (padDigits 2 m ++ '-' :: (padDigits 2 d ++ rest)))) :
    isoDate cs = some (y, m, d, rest) := by
  unfold isoDate
  simp only [hy, if_true, takeDigits_pad2 m hm, takeDigits_pad2 d hd]

theorem isoSeconds_ms (s f : Nat) (hs : s < 100) (hf : f < 1000) (rest : List Char) :
    isoSeconds (':' :: (padDigits 2 s ++ '.' :: (padDigits 3 f ++ rest)))
      = some (s, f, rest) := by
  unfold isoSeconds
  simp only [if_true, takeDigits_pad2 s hs, takeDigits_pad3 f hf]

theorem isoSeconds_plain (s : Nat) (hs : s < 100) (c : Char) (hc : c ≠ '.')
    (rest : List Char) :
    isoSeconds (':' :: (padDigits 2 s ++ c :: rest)) = some (s, 0, c :: rest) := by
  unfold isoSeconds
  simp only [if_true, takeDigits_pad2 s hs, hc, if_false]

theorem isoOffset_Z : isoOffset ['Z'] = some (some 0) := by decide

theorem isoOffset_signed (c : Char) (hc : c = '+' ∨ c = '-') (oh om : Nat) (hoh : oh ≤ 23)
    (hom : om ≤ 59) :
    isoOffset (c :: (padDigits 2 oh ++ ':' :: padDigits 2 om))
      = some (some ((if c = '-' then -1 else 1) * ((oh : Int) * 60 + om))) := by
  have hz : c ≠ 'Z' := by rcases hc with h | h <;> (subst h; decide)
  have hom2 := takeDigits_pad2 om (by omega) []
  rw [List.append_nil] at hom2
  unfold isoOffset
  simp only [hz, if_false, hc, if_true, takeDigits_pad2 oh (by omega), hom2, hoh, hom,
    and_self]

theorem parseIso_time (cs tail r5 : List Char) (y : Int) (m d h mi s f : Nat)
    (z : Option Int) (hh : h < 100) (hmi : mi < 100)
    (hd : isoDate cs = some (y, m, d, 'T' :: (padDigits 2 h ++ ':' :: (padDigits 2 mi ++ tail))))
    (hs : isoSeconds tail = some (s, f, r5)) (hz : isoOffset r5 = some z) :
    parseIso cs = some ⟨y, m, d, h, mi, s, f, z⟩ := by
  unfold parseIso
  simp only [hd, if_true, takeDigits_pad2 h hh, takeDigits_pad2 mi hmi, hs, hz]

/-! ## From calendar fields to a time value and back -/

theorem Day_MakeDate (D T : Int) (hT : 0 ≤ T ∧ T < msPerDay) : Day (MakeDate D T) = D := by
  unfold Day MakeDate msPerDay at *; omega

/-- A time value is the date of its day and its time-of-day fields. -/
theorem MakeDate_fields (t : Int) :
    MakeDate (Day t) (MakeTime (HourFromTime t) (MinFromTime t) (SecFromTime t)
      (msFromTime t)) = t := by
  unfold MakeDate Day MakeTime HourFromTime MinFromTime SecFromTime msFromTime
    msPerDay msPerHour msPerMinute msPerSecond
  omega

theorem MakeTime_range (h mi s ms : Int) (hh : 0 ≤ h ∧ h ≤ 23) (hmi : 0 ≤ mi ∧ mi ≤ 59)
    (hs : 0 ≤ s ∧ s ≤ 59) (hms : 0 ≤ ms ∧ ms ≤ 999) :
    0 ≤ MakeTime h mi s ms ∧ MakeTime h mi s ms < msPerDay := by
  unfold MakeTime msPerDay msPerHour msPerMinute msPerSecond; omega

theorem time_fields_MakeDate (D h mi s ms : Int) (hh : 0 ≤ h ∧ h ≤ 23)
    (hmi : 0 ≤ mi ∧ mi ≤ 59) (hs : 0 ≤ s ∧ s ≤ 59) (hms : 0 ≤ ms ∧ ms ≤ 999) :
    HourFromTime (MakeDate D (MakeTime h mi s ms)) = h
    ∧ MinFromTime (MakeDate D (MakeTime h mi s ms)) = mi
    ∧ SecFromTime (MakeDate D (MakeTime h mi s ms)) = s
    ∧ msFromTime (MakeDate D (MakeTime h mi s ms)) = ms := by
  unfold MakeDate MakeTime HourFromTime MinFromTime SecFromTime msFromTime
    msPerDay msPerHour msPerMinute msPerSecond
  omega

/-- The calendar fields of the time value built from a date that exists are
that date. -/
theorem date_fields_MakeDate (y m d T : Int) (hm : 0 ≤ m ∧ m ≤ 11)
    (hd : 1 ≤ d ∧ d ≤ daysInMonth y (m + 1).toNat) (hT : 0 ≤ T ∧ T < msPerDay) :
    YearFromTime (MakeDate (MakeDay y m d) T) = y
    ∧ MonthFromTime (MakeDate (MakeDay y m d) T) = m
    ∧ DateFromTime (MakeDate (MakeDay y m d) T) = d := by
  have hday := Day_MakeDate (MakeDay y m d) T hT
  generalize MakeDate (MakeDay y m d) T = t at *
  have hcases := MonthFromTime_cases t
  have hleap := InLeapYear_cases t
  have hsucc := DayFromYear_succ y
  have hyc := DaysInYear_cases y
  have hmc : m = 0 ∨ m = 1 ∨ m = 2 ∨ m = 3 ∨ m = 4 ∨ m = 5 ∨ m = 6 ∨ m = 7 ∨ m = 8
      ∨ m = 9 ∨ m = 10 ∨ m = 11 := by omega
  have hY : YearFromTime t = y := by
    unfold YearFromTime
    apply yearFromDay_unique
    · rw [hday]; unfold MakeDay daysBeforeMonth
      rcases hmc with h | h | h | h | h | h | h | h | h | h | h | h <;>
        rcases hyc with h2 | h2 <;> (subst h; norm_num [h2]; omega)
    · rw [hday, hsucc]; unfold MakeDay daysBeforeMonth
      unfold daysInMonth at hd
      rcases hmc with h | h | h | h | h | h | h | h | h | h | h | h <;>
        rcases hyc with h2 | h2 <;> (subst h; norm_num [h2] at hd ⊢; omega)
  have hdw : DayWithinYear t = MakeDay y m d - DayFromYear y := by
    unfold DayWithinYear; rw [hday, hY]
  rw [hY] at hleap
  have hM : MonthFromTime t = m := by
    unfold MakeDay daysBeforeMonth at hdw
    unfold daysInMonth at hd
    rcases hmc with h | h | h | h | h | h | h | h | h | h | h | h <;>
      rcases hleap with ⟨h3, h2⟩ | ⟨h3, h2⟩ <;>
      (subst h; norm_num [h2] at hd hdw; omega)
  refine ⟨hY, hM, ?_⟩
  unfold DateFromTime
  simp only [hM]
  unfold MakeDay daysBeforeMonth at hdw
  rcases hmc with h | h | h | h | h | h | h | h | h | h | h | h <;>
    rcases hleap with ⟨h3, h2⟩ | ⟨h3, h2⟩ <;>
    (subst h; norm_num [h2] at hdw ⊢; omega)

/-! ## `Date.parse` on strings of the date-time string format -/

theorem TimeFromYear_bounds (t : Int) (hy0 : 0 ≤ YearFromTime t)
    (hy1 : YearFromTime t ≤ 9999) :
    -62167219200000 ≤ t ∧ t < 253402300800000 := by
  have hs := YearFromTime_spec t
  have h0 := DayFromYear_mono 0 (YearFromTime t) hy0
  have h1 := DayFromYear_mono (YearFromTime t + 1) 10000 (by omega)
  have e0 : DayFromYear 0 = -719528 := by decide
  have e1 : DayFromYear 10000 = 2932897 := by decide
  unfold TimeFromYear msPerDay at hs
  omega

/-- What `parseIso` reads from `YYYY-MM-DDTHH:mm:ss` with a zone, once the
zone is read. -/
theorem parseIso_isoDateTimeChars (y mo d h mi s : Nat) (c : Char) (zone : List Char)
    (z : Option Int) (hy : y ≤ 9999) (hmo : mo ≤ 99) (hd : d ≤ 99) (hh : h ≤ 99)
    (hmi : mi ≤ 99) (hs : s ≤ 99) (hc : c ≠ '.') (hz : isoOffset (c :: zone) = some z) :
    parseIso (isoDateTimeChars y mo d h mi s (c :: zone))
      = some ⟨(y : Int), mo, d, h, mi, s, 0, z⟩ := by
  unfold isoDateTimeChars
  exact parseIso_time _ _ _ _ _ _ _ _ _ _ _ (by omega) (by omega)
    (isoDate_full _ _ _ _ _ (by omega) (by omega) (isoYear_pad4 y (by omega) _))
    (isoSeconds_plain s (by omega) c hc zone) hz

/-- `Date.parse` on `YYYY-MM-DDTHH:mm:ss` with a zone of `z` minutes, for a
date that exists and a time of day below 24:00. -/
theorem dateParse_isoDateTimeChars (H : Host) (y mo d h mi s : Nat) (c : Char)
    (zone : List Char) (z : Int) (hy : y ≤ 9999) (hmo : 1 ≤ mo ∧ mo ≤ 12)
    (hd : 1 ≤ d ∧ d ≤ daysInMonth y mo) (hh : h ≤ 23) (hmi : mi ≤ 59) (hs : s ≤ 59)
    (hc : c ≠ '.') (hz : isoOffset (c :: zone) = some (some z)) :
    dateParse H (String.mk (isoDateTimeChars y mo d h mi s (c :: zone)))
      = some (MakeDate (MakeDay y ((mo : Int) - 1) d) (MakeTime h mi s 0) - z * msPerMinute) := by
  have hd99 : d ≤ 99 := by
    have : daysInMonth y mo ≤ 31 := by unfold daysInMonth; split_ifs <;> omega
    omega
  unfold dateParse
  simp only [parseIso_isoDateTimeChars y mo d h mi s c zone (some z) hy (by omega) hd99
    (by omega) (by omega) (by omega) hc hz]
  have hl : IsoFields.legal ⟨(y : Int), mo, d, h, mi, s, 0, some z⟩ = true := by
    simp [IsoFields.legal, hmo, hd, hh, hmi, hs]
  simp [hl, IsoFields.value]

theorem YearFromTime_valid (t : Int) (ht : |t| ≤ maxTime) :
    -1000000 < YearFromTime t ∧ YearFromTime t < 1000000 := by
  unfold maxTime at ht
  rw [abs_le] at ht
  have e0 : TimeFromYear (-999999) = -31619087596800000 := by decide
  have e1 : TimeFromYear 1000000 = 31494784780800000 := by decide
  have h0 := YearFromTime_largest t (-999999) (by omega)
  have h1 := YearFromTime_lt t 1000000 (by omega)
  omega

/-- What `parseIso` reads from the string written by `toISOString`. -/
theorem parseIso_isoChars (t : Int) (ht : |t| ≤ maxTime) :
    parseIso (isoChars t) = some ⟨YearFromTime t, (MonthFromTime t + 1).toNat,
      (DateFromTime t).toNat, (HourFromTime t).toNat, (MinFromTime t).toNat,
      (SecFromTime t).toNat, (msFromTime t).toNat, some 0⟩ := by
  have hy := YearFromTime_valid t ht
  have hm := MonthFromTime_range t
  have hd := DateFromTime_range t
  have hd31 : daysInMonth (YearFromTime t) (MonthFromTime t + 1).toNat ≤ 31 := by
    unfold daysInMonth; split_ifs <;> omega
  have hh := HourFromTime_range t
  have hmi := MinFromTime_range t
  have hs : 0 ≤ SecFromTime t ∧ SecFromTime t ≤ 59 := by unfold SecFromTime; omega
  have hms : 0 ≤ msFromTime t ∧ msFromTime t ≤ 999 := by
    unfold msFromTime msPerSecond; omega
  unfold isoChars
  exact parseIso_time _ _ _ _ _ _ _ _ _ _ _ (by omega) (by omega)
    (isoDate_full _ _ _ _ _ (by omega) (by omega)
      (isoYear_isoYearChars _ hy.1 hy.2 _))
    (isoSeconds_ms _ _ (by omega) (by omega) _) isoOffset_Z

/-- `Date.parse` gives back the time value written by `toISOString`. -/
theorem dateParse_isoChars (H : Host) (t : Int) (ht : |t| ≤ maxTime) :
    dateParse H (String.mk (isoChars t)) = some t := by
  have hm := MonthFromTime_range t
  have hd := DateFromTime_range t
  have hh := HourFromTime_range t
  have hmi := MinFromTime_range t
  have hs : 0 ≤ SecFromTime t ∧ SecFromTime t ≤ 59 := by unfold SecFromTime; omega
  have hms : 0 ≤ msFromTime t ∧ msFromTime t ≤ 999 := by
    unfold msFromTime msPerSecond; omega
  unfold dateParse
  simp only [parseIso_isoChars t ht]
  have hl : IsoFields.legal ⟨YearFromTime t, (MonthFromTime t + 1).toNat,
      (DateFromTime t).toNat, (HourFromTime t).toNat, (MinFromTime t).toNat,
      (SecFromTime t).toNat, (msFromTime t).toNat, some 0⟩ = true := by
    simp only [IsoFields.legal, decide_eq_true_eq]
    refine ⟨by omega, by omega, by omega, hd.2, by omega, by omega, Or.inl (by omega)⟩
  rw [if_pos hl]
  simp only [IsoFields.value, zero_mul, sub_zero]
  have e1 : (((MonthFromTime t + 1).toNat : Nat) : Int) - 1 = MonthFromTime t := by omega
  have e2 : (((DateFromTime t).toNat : Nat) : Int) = DateFromTime t := by omega
  have e3 : (((HourFromTime t).toNat : Nat) : Int) = HourFromTime t := by omega
  have e4 : (((MinFromTime t).toNat : Nat) : Int) = MinFromTime t := by omega
  have e5 : (((SecFromTime t).toNat : Nat) : Int) = SecFromTime t := by omega
  have e6 : (((msFromTime t).toNat : Nat) : Int) = msFromTime t := by omega
  rw [e1, e2, e3, e4, e5, e6, MakeDay_fields, MakeDate_fields]

/-! ## Strings outside the date-time string format -/

/-- A string whose first character is neither a digit nor a sign, such as one
that starts with a day name, is not in the date-time string format: what
`new Date` makes of it is what the host makes of it. -/
theorem newDateOfString_host (H : Host) (c : Char) (cs : List Char)
    (hc : digitVal c = none) (hp : c ≠ '+') (hm : c ≠ '-') :
    newDateOfString H (String.mk (c :: cs)) = ⟨TimeClip (H.parseImpl (String.mk (c :: cs)))⟩ := by
  have h1 : isoYear (c :: cs) = none := by
    unfold isoYear
    simp only [hp, hm, if_false, takeDigits, hc]
  have h2 : parseIso (c :: cs) = none := by
    unfold parseIso isoDate
    simp only [h1]
  unfold newDateOfString dateParse
  simp only [h2]

/-! ## Lemmas for the behaviour claims: totality, degree values, the leap-year rule -/

theorem hmsString_length (a b c d : Nat) : (hmsString a b c d).length = 12 := by
  simp [hmsString, padDigits, String.length]

/-- On two valid instants `timeSpanToString` returns a string when their
difference is itself a time value, and raises the `RangeError` of
`toISOString` when it is not. -/
theorem timeSpanToString_total_iff (s e : Int) (hs : |s| ≤ maxTime) (he : |e| ≤ maxTime) :
    (|e - s| ≤ maxTime → ∃ str, timeSpanToString (some s) (some e) = .ok str)
    ∧ (maxTime < |e - s| → timeSpanToString (some s) (some e) = .error .rangeError) := by
  constructor
  · intro hd
    refine ⟨slice (String.mk (isoChars (e - s))) 11 (-1), ?_⟩
    simp only [timeSpanToString, newDate, TimeClip_valid s hs, TimeClip_valid e he, numSub,
      TimeClip_valid (e - s) hd, toISOString]
  · intro hd
    simp only [timeSpanToString, newDate, TimeClip_valid s hs, TimeClip_valid e he, numSub,
      TimeClip_invalid (e - s) hd, toISOString]

/-- The degree value, as half of an integer: with `n = 60 * H - 11 * m`, it is
`min |n| (720 - |n|) / 2`. -/
theorem degrees_half_integer {K : Type} [LinearOrderedField K] (H m : Int) :
    min |((H : K) * 30 + (m : K) * (1 / 2)) - (m : K) * 6|
        (360 - |((H : K) * 30 + (m : K) * (1 / 2)) - (m : K) * 6|)
      = ((min |60 * H - 11 * m| (720 - |60 * H - 11 * m|) : Int) : K) / 2 := by
  have e : ((H : K) * 30 + (m : K) * (1 / 2)) - (m : K) * 6
      = ((60 * H - 11 * m : Int) : K) / 2 := by
    push_cast; ring
  rw [e, abs_div, abs_two, ← Int.cast_abs]
  generalize |60 * H - 11 * m| = a
  rcases le_total a (720 - a) with h | h
  · have h2 : (a : K) / 2 ≤ 360 - (a : K) / 2 := by
      have : (a : K) ≤ ((720 - a : Int) : K) := by exact_mod_cast h
      push_cast at this; linarith
    rw [min_eq_left h, min_eq_left h2]
  · have h2 : 360 - (a : K) / 2 ≤ (a : K) / 2 := by
      have : ((720 - a : Int) : K) ≤ (a : K) := by exact_mod_cast h
      push_cast at this; linarith
    rw [min_eq_right h, min_eq_right h2]
    push_cast; ring

theorem hands_coincide_iff (H m : Int) (hH : 0 ≤ H ∧ H ≤ 11) (hm : 0 ≤ m ∧ m ≤ 59) :
    (min |60 * H - 11 * m| (720 - |60 * H - 11 * m|) = 0 ↔ m = 0 ∧ H = 0)
    ∧ (min |60 * H - 11 * m| (720 - |60 * H - 11 * m|) = 360 ↔ m = 0 ∧ H = 6) := by
  rcases abs_cases (60 * H - 11 * m) with ⟨h1, h2⟩ | ⟨h1, h2⟩ <;>
    rcases min_cases |60 * H - 11 * m| (720 - |60 * H - 11 * m|) with ⟨h3, h4⟩ | ⟨h3, h4⟩ <;>
    (rw [h3]; rw [h1] at h4 ⊢; omega)

/-- The source function `isLeapYear` applies `leapYearRule` to the local year. -/
theorem isLeapYear_eq_leapYearRule (H : Host) (date : TimeValue) :
    isLeapYear H date =
      match getFullYear H (newDate date) with
      | none => false
      | some year => leapYearRule year := by
  rfl

theorem leapYearRule_add_400 (Y : Int) : leapYearRule (Y + 400) = leapYearRule Y := by
  rw [Bool.eq_iff_iff]
  simp only [leapYearRule, ite_eq_left_iff, not_or, not_and, Decidable.not_not,
    Bool.false_eq_true, imp_false, ne_eq, tmod_eq_zero_iff]
  omega

/-- The number of leap years among the 400 years from `Y` on. -/
theorem leap_count_shift (Y : Int) :
    ((Finset.range 400).filter (fun i : Nat => leapYearRule (Y + 1 + i) = true)).card
      = ((Finset.range 400).filter (fun i : Nat => leapYearRule (Y + i) = true)).card := by
  rw [Finset.card_filter, Finset.card_filter]
  have h1 := Finset.sum_range_succ
    (fun i : Nat => if leapYearRule (Y + i) = true then 1 else 0) 400
  have h2 := Finset.sum_range_succ'
    (fun i : Nat => if leapYearRule (Y + i) = true then 1 else 0) 400
  have e : ∀ i : Nat, leapYearRule (Y + ((i + 1 : Nat) : Int)) = leapYearRule (Y + 1 + i) := by
    intro i
    have h : Y + ((i + 1 : Nat) : Int) = Y + 1 + i := by push_cast; ring
    rw [h]
  have e400 : leapYearRule (Y + ((400 : Nat) : Int)) = leapYearRule (Y + ((0 : Nat) : Int)) := by
    have := leapYearRule_add_400 Y
    simpa using this
  rw [e400] at h1
  simp only [e] at h2
  omega

set_option maxRecDepth 100000 in
theorem leap_count_zero :
    ((Finset.range 400).filter (fun i : Nat => leapYearRule ((0 : Int) + i) = true)).card
      = 97 := by
  decide

theorem leap_count (Y : Int) :
    ((Finset.range 400).filter (fun i : Nat => leapYearRule (Y + i) = true)).card = 97 := by
  induction Y using Int.induction_on with
  | hz => exact leap_count_zero
  | hp i ih => rw [leap_count_shift]; exact ih
  | hn i ih =>
    have h := leap_count_shift (-(i : Int) - 1)
    rw [show -(i : Int) - 1 + 1 = -(i : Int) by ring, ih] at h
    exact h.symm

/-! ## Claim C1: `isLeapYear` applies the Gregorian rule to the local year -/

/-- Claim C1. For a valid instant whose local calendar year is `Y` (of any
sign), `isLeapYear` returns true exactly when `Y` is divisible by 4 and not by
100, or divisible by 400, with the remainder read either as the mathematical
modulo or as the JavaScript remainder; on the dates of the years 1900, 2000,
2001, 2012 and 2015 built as in the docstring it returns false, true, false,
true and false. -/
theorem isLeapYear_gregorian (H : Host) (t Y : Int) (hvalid : |t| ≤ maxTime)
    (hY : getFullYear H ⟨some t⟩ = some Y) :
    (isLeapYear H (some t) = true ↔ ((Y % 4 = 0 ∧ Y % 100 ≠ 0) ∨ Y % 400 = 0))
    ∧ (isLeapYear H (some t) = true ↔
        ((Y.tmod 4 = 0 ∧ Y.tmod 100 ≠ 0) ∨ Y.tmod 400 = 0))
    ∧ isLeapYear utcHost (newDateOfFields utcHost 1900 1 1 0 0 0 0).tv = false
    ∧ isLeapYear utcHost (newDateOfFields utcHost 2000 1 1 0 0 0 0).tv = true
    ∧ isLeapYear utcHost (newDateOfFields utcHost 2001 1 1 0 0 0 0).tv = false
    ∧ isLeapYear utcHost (newDateOfFields utcHost 2012 1 1 0 0 0 0).tv = true
    ∧ isLeapYear utcHost (newDateOfFields utcHost 2015 1 1 0 0 0 0).tv = false := by
  have key : isLeapYear H (some t) = true ↔
      ((Y.tmod 4 = 0 ∧ Y.tmod 100 ≠ 0) ∨ Y.tmod 400 = 0) := by
    unfold isLeapYear newDate
    simp only [TimeClip_valid t hvalid, hY]
    split_ifs with h <;> simp [h]
  refine ⟨?_, key, by decide, by decide, by decide, by decide, by decide⟩
  simp only [key, ne_eq, tmod_eq_zero_iff]

/-- Witness of `isLeapYear_gregorian`: 1 February 2000, 00:00 UTC, on a host
in the UTC zone. -/
theorem isLeapYear_gregorian_witness :
    |(949363200000 : Int)| ≤ maxTime
    ∧ getFullYear utcHost ⟨some 949363200000⟩ = some 2000
    ∧ (isLeapYear utcHost (some 949363200000) = true ↔
        (((2000 : Int) % 4 = 0 ∧ (2000 : Int) % 100 ≠ 0) ∨ (2000 : Int) % 400 = 0)) :=
  ⟨by decide, by decide,
    (isLeapYear_gregorian utcHost 949363200000 2000 (by decide) (by decide)).1⟩

/-! ## Claim C2: the fields of `timeSpanToString` -/

/-- Claim C2, counterexample. A span of 25 hours is rendered `01:00:00.000`,
not `25:00:00.000`: the hour field rolls over at 24. -/
theorem timeSpanToString_25h :
    timeSpanToString (some 0) (some 90000000) = .ok "01:00:00.000"
    ∧ timeSpanToString (some 0) (some 90000000) ≠ .ok "25:00:00.000" := by
  constructor
  · rfl
  · intro h
    have h2 : (Except.ok "01:00:00.000" : Except JSError String) = .ok "25:00:00.000" :=
      Eq.trans (Eq.symm (by rfl)) h
    exact absurd (Except.ok.inj h2) (by decide)

/-- Claim C2, amended. For valid instants `start ≤ end` with
`d = end - start < 253402300800000` (the span stays below the year 10000
counted from the epoch), `timeSpanToString` returns `HH:mm:ss.sss` with
`HH = floor(d / 3600000) mod 24`, `mm = floor(d / 60000) mod 60`,
`ss = floor(d / 1000) mod 60` and `sss = d mod 1000`, padded with zeros to the
widths 2, 2, 2 and 3. -/
theorem timeSpanToString_rollover (s e : Int) (hs : |s| ≤ maxTime) (he : |e| ≤ maxTime)
    (hle : s ≤ e) (h1 : e - s < 253402300800000) :
    timeSpanToString (some s) (some e) =
      .ok (hmsString ((e - s) / 3600000 % 24).toNat ((e - s) / 60000 % 60).toNat
        ((e - s) / 1000 % 60).toNat ((e - s) % 1000).toNat) :=
  timeSpanToString_fields s e hs he (by omega) h1

/-- Witness of `timeSpanToString_rollover`: a span of 25 hours 20 minutes
10.453 seconds. -/
theorem timeSpanToString_rollover_witness :
    |(949399200000 : Int)| ≤ maxTime ∧ |(949490410453 : Int)| ≤ maxTime
    ∧ (949399200000 : Int) ≤ 949490410453
    ∧ (949490410453 : Int) - 949399200000 < 253402300800000
    ∧ timeSpanToString (some 949399200000) (some 949490410453) =
      .ok (hmsString (((949490410453 : Int) - 949399200000) / 3600000 % 24).toNat
        (((949490410453 : Int) - 949399200000) / 60000 % 60).toNat
        (((949490410453 : Int) - 949399200000) / 1000 % 60).toNat
        (((949490410453 : Int) - 949399200000) % 1000).toNat) :=
  ⟨by decide, by decide, by decide, by decide,
    timeSpanToString_rollover 949399200000 949490410453 (by decide) (by decide)
      (by decide) (by decide)⟩

/-! ## Claim C3: the formula of `angleBetweenClockHands` -/

/-- Claim C3. On a valid instant whose UTC hour is `h` and UTC minute is `m`
(so `h` is in 0..23 and `m` in 0..59), `angleBetweenClockHands` returns
`(pi / 180) * min raw (360 - raw)` with
`raw = |((h mod 12) * 30 + m * 0.5) - m * 6|`, the factor `pi / 180` being
applied once to the degree value; this covers `h = 12`. In degrees the results
at 00:00, 03:00, 18:00, 21:00 and 12:30 are 0, 90, 180, 90 and 165. -/
theorem angleBetweenClockHands_formula {K : Type} [LinearOrderedField K] (pi : K)
    (t h m : Int) (ht : |t| ≤ maxTime) (hh : getUTCHours ⟨some t⟩ = some h)
    (hm : getUTCMinutes ⟨some t⟩ = some m) :
    (0 ≤ h ∧ h ≤ 23 ∧ 0 ≤ m ∧ m ≤ 59)
    ∧ angleBetweenClockHands pi (some t) = some (pi / 180 *
        min |(((h % 12 : Int) : K) * 30 + (m : K) * (1 / 2)) - (m : K) * 6|
          (360 - |(((h % 12 : Int) : K) * 30 + (m : K) * (1 / 2)) - (m : K) * 6|))
    ∧ angleBetweenClockHands pi (dateUTC 2016 2 5 0 0) = some 0
    ∧ angleBetweenClockHands pi (dateUTC 2016 3 5 3 0) = some (90 * (pi / 180))
    ∧ angleBetweenClockHands pi (dateUTC 2016 3 5 18 0) = some (180 * (pi / 180))
    ∧ angleBetweenClockHands pi (dateUTC 2016 3 5 21 0) = some (90 * (pi / 180))
    ∧ angleBetweenClockHands pi (dateUTC 2016 3 5 12 30) = some (165 * (pi / 180)) := by
  simp only [getUTCHours, getUTCMinutes, Option.map_some', Option.some.injEq] at hh hm
  subst hh hm
  have r1 := HourFromTime_range t
  have r2 := MinFromTime_range t
  refine ⟨⟨r1.1, r1.2, r2.1, r2.2⟩, angleBetweenClockHands_degrees pi t ht, ?_, ?_, ?_, ?_, ?_⟩
  · rw [show dateUTC 2016 2 5 0 0 = some 1457136000000 by decide,
      angleBetweenClockHands_degrees pi _ (by decide),
      show HourFromTime 1457136000000 = 0 by decide,
      show MinFromTime 1457136000000 = 0 by decide]
    norm_num
  · rw [show dateUTC 2016 3 5 3 0 = some 1459825200000 by decide,
      angleBetweenClockHands_degrees pi _ (by decide),
      show HourFromTime 1459825200000 = 3 by decide,
      show MinFromTime 1459825200000 = 0 by decide]
    norm_num
    ring
  · rw [show dateUTC 2016 3 5 18 0 = some 1459879200000 by decide,
      angleBetweenClockHands_degrees pi _ (by decide),
      show HourFromTime 1459879200000 = 18 by decide,
      show MinFromTime 1459879200000 = 0 by decide]
    norm_num
    ring
  · rw [show dateUTC 2016 3 5 21 0 = some 1459890000000 by decide,
      angleBetweenClockHands_degrees pi _ (by decide),
      show HourFromTime 1459890000000 = 21 by decide,
      show MinFromTime 1459890000000 = 0 by decide]
    norm_num
    ring
  · rw [show dateUTC 2016 3 5 12 30 = some 1459859400000 by decide,
      angleBetweenClockHands_degrees pi _ (by decide),
      show HourFromTime 1459859400000 = 12 by decide,
      show MinFromTime 1459859400000 = 30 by decide]
    norm_num
    ring

/-- Witness of `angleBetweenClockHands_formula`: 5 April 2016, 03:00 UTC, over
the real numbers. -/
theorem angleBetweenClockHands_formula_witness :
    |(1459825200000 : Int)| ≤ maxTime
    ∧ getUTCHours ⟨some 1459825200000⟩ = some 3
    ∧ getUTCMinutes ⟨some 1459825200000⟩ = some 0
    ∧ angleBetweenClockHands Real.pi (some 1459825200000) = some (Real.pi / 180 *
        min |(((3 % 12 : Int) : ℝ) * 30 + ((0 : Int) : ℝ) * (1 / 2)) - ((0 : Int) : ℝ) * 6|
          (360 - |(((3 % 12 : Int) : ℝ) * 30 + ((0 : Int) : ℝ) * (1 / 2))
            - ((0 : Int) : ℝ) * 6|)) :=
  ⟨by decide, by decide, by decide,
    (angleBetweenClockHands_formula Real.pi 1459825200000 3 0 (by decide) (by decide)
      (by decide)).2.1⟩

/-! ## Claim C4: the range of `angleBetweenClockHands` -/

/-- Claim C4. On a valid instant the degree value computed by
`angleBetweenClockHands` lies in [0, 180] and, `pi` being nonnegative, the
value returned lies in [0, pi]. -/
theorem angleBetweenClockHands_range {K : Type} [LinearOrderedField K] (pi : K)
    (hpi : 0 ≤ pi) (t : Int) (ht : |t| ≤ maxTime) :
    ∃ deg : K,
      deg = min |(((HourFromTime t % 12 : Int) : K) * 30 + (MinFromTime t : K) * (1 / 2))
            - (MinFromTime t : K) * 6|
        (360 - |(((HourFromTime t % 12 : Int) : K) * 30 + (MinFromTime t : K) * (1 / 2))
            - (MinFromTime t : K) * 6|)
      ∧ 0 ≤ deg ∧ deg ≤ 180
      ∧ ∃ r : K, angleBetweenClockHands pi (some t) = some r ∧ r = pi / 180 * deg
        ∧ 0 ≤ r ∧ r ≤ pi := by
  have hh := HourFromTime_range t
  have hm := MinFromTime_range t
  have key := angleBetweenClockHands_degrees pi t ht
  have hH0 : (0 : K) ≤ ((HourFromTime t % 12 : Int) : K) := by
    exact_mod_cast (show 0 ≤ HourFromTime t % 12 by omega)
  have hH1 : ((HourFromTime t % 12 : Int) : K) ≤ 11 := by
    exact_mod_cast (show HourFromTime t % 12 ≤ 11 by omega)
  have hm0 : (0 : K) ≤ (MinFromTime t : K) := by exact_mod_cast hm.1
  have hm1 : (MinFromTime t : K) ≤ 59 := by exact_mod_cast hm.2
  generalize ((HourFromTime t % 12 : Int) : K) = H at *
  generalize (MinFromTime t : K) = x at *
  have hraw0 : 0 ≤ |H * 30 + x * (1 / 2) - x * 6| := abs_nonneg _
  have hraw1 : |H * 30 + x * (1 / 2) - x * 6| ≤ 360 := by
    rw [abs_le]; constructor <;> linarith
  generalize |H * 30 + x * (1 / 2) - x * 6| = raw at *
  have hd0 : 0 ≤ min raw (360 - raw) := le_min hraw0 (by linarith)
  have hd1 : min raw (360 - raw) ≤ 180 := by
    rcases le_total raw 180 with h | h
    · exact le_trans (min_le_left _ _) h
    · exact le_trans (min_le_right _ _) (by linarith)
  refine ⟨_, rfl, hd0, hd1, _, key, rfl, mul_nonneg (div_nonneg hpi (by norm_num)) hd0, ?_⟩
  calc pi / 180 * min raw (360 - raw) ≤ pi / 180 * 180 :=
        mul_le_mul_of_nonneg_left hd1 (div_nonneg hpi (by norm_num))
    _ = pi := by ring

/-- Witness of `angleBetweenClockHands_range`: 5 April 2016, 18:00 UTC, over
the real numbers. -/
theorem angleBetweenClockHands_range_witness :
    (0 : ℝ) ≤ Real.pi ∧ |(1459879200000 : Int)| ≤ maxTime
    ∧ ∃ r : ℝ, angleBetweenClockHands Real.pi (some 1459879200000) = some r
        ∧ 0 ≤ r ∧ r ≤ Real.pi :=
  ⟨Real.pi_pos.le, by decide,
    match angleBetweenClockHands_range Real.pi Real.pi_pos.le 1459879200000 (by decide) with
    | ⟨_, _, _, _, r, h1, _, h3, h4⟩ => ⟨r, h1, h3, h4⟩⟩

/-! ## Claim C5: `timeSpanToString` and the order of its arguments -/

/-- Claim C5, counterexample. With start 11:00:00 and end 10:00:00 the result is
`23:00:00.000`, while the span of the same length in the other direction
gives `01:00:00.000`. -/
theorem timeSpanToString_backwards :
    timeSpanToString (some 949402800000) (some 949399200000) = .ok "23:00:00.000"
    ∧ timeSpanToString (some 949399200000) (some 949402800000) = .ok "01:00:00.000"
    ∧ timeSpanToString (some 949402800000) (some 949399200000)
        ≠ timeSpanToString (some 949399200000) (some 949402800000) := by
  have h1 : timeSpanToString (some 949402800000) (some 949399200000)
      = .ok "23:00:00.000" := by rfl
  have h2 : timeSpanToString (some 949399200000) (some 949402800000)
      = .ok "01:00:00.000" := by rfl
  refine ⟨h1, h2, ?_⟩
  rw [h1, h2]
  intro h
  exact absurd (Except.ok.inj h) (by decide)

/-- Claim C5, amended. `timeSpanToString` formats the signed difference
`d = end - start`, not its absolute value: for valid instants with
`|d| ≤ 62167219200000` the result is `HH:mm:ss.sss` with
`HH = floor(d / 3600000) mod 24`, `mm = floor(d / 60000) mod 60`,
`ss = floor(d / 1000) mod 60`, `sss = d mod 1000` (floor division and
nonnegative remainders, also for `d < 0`), and exchanging the two arguments
gives the same string exactly when `d` is a multiple of 43200000 ms (12
hours). -/
theorem timeSpanToString_signed (a b : Int) (ha : |a| ≤ maxTime) (hb : |b| ≤ maxTime)
    (hab : |b - a| ≤ 62167219200000) :
    timeSpanToString (some a) (some b) =
      .ok (hmsString ((b - a) / 3600000 % 24).toNat ((b - a) / 60000 % 60).toNat
        ((b - a) / 1000 % 60).toNat ((b - a) % 1000).toNat)
    ∧ (timeSpanToString (some a) (some b) = timeSpanToString (some b) (some a)
        ↔ (b - a) % 43200000 = 0) := by
  rw [abs_le] at hab
  have h1 := timeSpanToString_fields a b ha hb (by omega) (by omega)
  have h2 := timeSpanToString_fields b a hb ha (by omega) (by omega)
  refine ⟨h1, ?_⟩
  rw [h1, h2]
  unfold HourFromTime MinFromTime SecFromTime msFromTime msPerHour msPerMinute msPerSecond
  constructor
  · intro h
    have h3 := hmsString_inj _ _ _ _ _ _ _ _ (by omega) (by omega) (by omega) (by omega)
      (by omega) (by omega) (by omega) (by omega) (Except.ok.inj h)
    omega
  · intro h
    have e1 : (b - a) / 3600000 % 24 = (a - b) / 3600000 % 24 := by omega
    have e2 : (b - a) / 60000 % 60 = (a - b) / 60000 % 60 := by omega
    have e3 : (b - a) / 1000 % 60 = (a - b) / 1000 % 60 := by omega
    have e4 : (b - a) % 1000 = (a - b) % 1000 := by omega
    rw [e1, e2, e3, e4]

/-- Witness of `timeSpanToString_signed`: start 11:00:00, end 10:00:00 on
1 February 2000. -/
theorem timeSpanToString_signed_witness :
    |(949402800000 : Int)| ≤ maxTime ∧ |(949399200000 : Int)| ≤ maxTime
    ∧ |(949399200000 : Int) - 949402800000| ≤ 62167219200000
    ∧ timeSpanToString (some 949402800000) (some 949399200000) =
      .ok (hmsString (((949399200000 : Int) - 949402800000) / 3600000 % 24).toNat
        (((949399200000 : Int) - 949402800000) / 60000 % 60).toNat
        (((949399200000 : Int) - 949402800000) / 1000 % 60).toNat
        (((949399200000 : Int) - 949402800000) % 1000).toNat) :=
  ⟨by decide, by decide, by decide,
    (timeSpanToString_signed 949402800000 949399200000 (by decide) (by decide)
      (by decide)).1⟩

/-! ## Claim C6: the parsing functions on malformed text -/

/-- Claim C6, counterexample. On the text `not a date` both parsing functions
return normally, and what they return is the invalid date. -/
theorem parse_not_a_date :
    parseDataFromRfc2822 utcHost "not a date" = .ok ⟨none⟩
    ∧ parseDataFromIso8601 utcHost "not a date" = .ok ⟨none⟩ := by
  constructor <;> rfl

/-- Claim C6, amended. On every text both parsing functions return a date to
the caller and raise nothing; on a text that is not a legal string of the
date-time string format and that the host does not recognise either, the date
returned is the invalid date (time value `NaN`). -/
theorem parse_returns_invalid_date (H : Host) (s : String)
    (hiso : ∀ f, parseIso s.data = some f → f.legal = false)
    (himpl : H.parseImpl s = none) :
    parseDataFromRfc2822 H s = .ok ⟨none⟩
    ∧ parseDataFromIso8601 H s = .ok ⟨none⟩
    ∧ (∀ (H2 : Host) (s2 : String) (e : JSError),
        parseDataFromRfc2822 H2 s2 ≠ .error e ∧ parseDataFromIso8601 H2 s2 ≠ .error e) := by
  have hp : dateParse H s = none := by
    unfold dateParse
    cases hf : parseIso s.data with
    | none => simp [himpl]
    | some f => simp [hiso f hf, himpl]
  refine ⟨?_, ?_, ?_⟩
  · simp [parseDataFromRfc2822, newDateOfString, hp, TimeClip]
  · simp [parseDataFromIso8601, newDateOfString, hp, TimeClip]
  · intro H2 s2 e
    simp [parseDataFromRfc2822, parseDataFromIso8601]

/-- Witness of `parse_returns_invalid_date`: the text `not a date` on a host
that recognises the standard format only. -/
theorem parse_returns_invalid_date_witness :
    (∀ f, parseIso "not a date".data = some f → f.legal = false)
    ∧ utcHost.parseImpl "not a date" = none
    ∧ parseDataFromRfc2822 utcHost "not a date" = .ok ⟨none⟩
    ∧ parseDataFromIso8601 utcHost "not a date" = .ok ⟨none⟩ :=
  have h1 : ∀ f, parseIso "not a date".data = some f → f.legal = false := by
    intro f hf
    have hn : parseIso "not a date".data = none := by decide
    rw [hn] at hf
    exact absurd hf (by simp)
  ⟨h1, rfl, (parse_returns_invalid_date utcHost "not a date" h1 rfl).1,
    (parse_returns_invalid_date utcHost "not a date" h1 rfl).2.1⟩

/-! ## Claim C7: `parseDataFromIso8601` on a date-time with zone -/

/-- Claim C7. For a date that exists in the years 0..9999 and a time of day
`HH:mm:ss` below 24:00, `parseDataFromIso8601` applied to
`YYYY-MM-DDTHH:mm:ssZ` returns the instant whose UTC calendar fields are the
ones written, and applied to the same date-time followed by `+hh:mm` or
`-hh:mm` it returns that instant minus the stated offset. The two strings of
the docstring give 2016-01-19 08:07:37 UTC and 2016-01-19 16:07:37 UTC. -/
theorem parseDataFromIso8601_value (H : Host) (y mo d h mi s : Nat) (neg : Bool)
    (oh om : Nat) (hy : y ≤ 9999) (hmo : 1 ≤ mo ∧ mo ≤ 12)
    (hd : 1 ≤ d ∧ d ≤ daysInMonth y mo) (hh : h ≤ 23) (hmi : mi ≤ 59) (hs : s ≤ 59)
    (hoh : oh ≤ 23) (hom : om ≤ 59) :
    (∃ civil : Int,
      civil = MakeDate (MakeDay y ((mo : Int) - 1) d) (MakeTime h mi s 0)
      ∧ YearFromTime civil = y ∧ MonthFromTime civil + 1 = mo ∧ DateFromTime civil = d
      ∧ HourFromTime civil = h ∧ MinFromTime civil = mi ∧ SecFromTime civil = s
      ∧ msFromTime civil = 0
      ∧ parseDataFromIso8601 H (String.mk (isoDateTimeChars y mo d h mi s ['Z']))
          = .ok ⟨some civil⟩
      ∧ parseDataFromIso8601 H
          (String.mk (isoDateTimeChars y mo d h mi s (offsetChars neg oh om)))
          = .ok ⟨some (civil - offsetMs neg oh om)⟩)
    ∧ parseDataFromIso8601 H "2016-01-19T08:07:37Z" = .ok ⟨some 1453190857000⟩
    ∧ parseDataFromIso8601 H "2016-01-19T16:07:37+00:00" = .ok ⟨some 1453219657000⟩
    ∧ toISOString ⟨some 1453190857000⟩ = .ok "2016-01-19T08:07:37.000Z"
    ∧ toISOString ⟨some 1453219657000⟩ = .ok "2016-01-19T16:07:37.000Z" := by
  refine ⟨⟨_, rfl, ?_⟩, by rfl, by rfl, by rfl, by rfl⟩
  have hT := MakeTime_range h mi s 0 (by omega) (by omega) (by omega) (by omega)
  have hdf := date_fields_MakeDate y ((mo : Int) - 1) d (MakeTime h mi s 0) (by omega)
    (by
      have e : ((mo : Int) - 1 + 1).toNat = mo := by omega
      rw [e]; omega) hT
  have htf := time_fields_MakeDate (MakeDay y ((mo : Int) - 1) d) h mi s 0 (by omega)
    (by omega) (by omega) (by omega)
  have hb := TimeFromYear_bounds _ (by rw [hdf.1]; omega) (by rw [hdf.1]; omega)
  have hpZ := dateParse_isoDateTimeChars H y mo d h mi s 'Z' [] 0 hy hmo hd hh hmi hs
    (by decide) isoOffset_Z
  have hpO : dateParse H (String.mk (isoDateTimeChars y mo d h mi s (offsetChars neg oh om)))
      = some (MakeDate (MakeDay y ((mo : Int) - 1) d) (MakeTime h mi s 0)
          - offsetMs neg oh om) := by
    cases neg
    · have := dateParse_isoDateTimeChars H y mo d h mi s '+'
        (padDigits 2 oh ++ ':' :: padDigits 2 om) _ hy hmo hd hh hmi hs
        (by decide) (isoOffset_signed '+' (Or.inl rfl) oh om hoh hom)
      simpa [offsetChars, offsetMs] using this
    · have := dateParse_isoDateTimeChars H y mo d h mi s '-'
        (padDigits 2 oh ++ ':' :: padDigits 2 om) _ hy hmo hd hh hmi hs
        (by decide) (isoOffset_signed '-' (Or.inr rfl) oh om hoh hom)
      simpa [offsetChars, offsetMs] using this
  have hoff : -86400000 < offsetMs neg oh om ∧ offsetMs neg oh om < 86400000 := by
    unfold offsetMs msPerMinute
    cases neg <;> simp <;> omega
  generalize MakeDate (MakeDay y ((mo : Int) - 1) d) (MakeTime h mi s 0) = civil at *
  generalize offsetMs neg oh om = off at *
  refine ⟨hdf.1, by omega, hdf.2.2, htf.1, htf.2.1, htf.2.2.1, htf.2.2.2, ?_, ?_⟩
  · unfold parseDataFromIso8601 newDateOfString
    rw [hpZ]
    simp only [zero_mul, sub_zero]
    rw [TimeClip_valid civil (by unfold maxTime; rw [abs_le]; omega)]
  · unfold parseDataFromIso8601 newDateOfString
    rw [hpO, TimeClip_valid (civil - off) (by unfold maxTime; rw [abs_le]; omega)]

/-- Witness of `parseDataFromIso8601_value`: 29 February 2016, 23:59:58, zone
`-05:30`. -/
theorem parseDataFromIso8601_value_witness :
    (2016 : Nat) ≤ 9999 ∧ (1 ≤ 2 ∧ 2 ≤ 12) ∧ (1 ≤ 29 ∧ 29 ≤ daysInMonth 2016 2)
    ∧ (23 : Nat) ≤ 23 ∧ (59 : Nat) ≤ 59 ∧ (58 : Nat) ≤ 59 ∧ (5 : Nat) ≤ 23 ∧ (30 : Nat) ≤ 59
    ∧ ∃ civil : Int, YearFromTime civil = 2016 ∧ MonthFromTime civil + 1 = 2
        ∧ DateFromTime civil = 29 ∧ HourFromTime civil = 23 ∧ MinFromTime civil = 59
        ∧ SecFromTime civil = 58
        ∧ parseDataFromIso8601 utcHost "2016-02-29T23:59:58-05:30"
            = .ok ⟨some (civil - offsetMs true 5 30)⟩ :=
  ⟨by decide, by decide, by decide, by decide, by decide, by decide, by decide, by decide,
    match parseDataFromIso8601_value utcHost 2016 2 29 23 59 58 true 5 30 (by decide)
      (by decide) (by decide) (by decide) (by decide) (by decide) (by decide) (by decide) with
    | ⟨⟨civil, _, h1, h2, h3, h4, h5, h6, _, _, h9⟩, _⟩ =>
      ⟨civil, h1, h2, h3, h4, h5, h6, h9⟩⟩

/-! ## Claim C8: `toISOString` followed by `parseDataFromIso8601` -/

/-- Claim C8. For every valid instant `t`, `toISOString` returns a string, and
`parseDataFromIso8601` applied to that string returns the date with the time
value `t`; formatting the parsed date gives the same string again. -/
theorem parseDataFromIso8601_roundtrip (H : Host) (t : Int) (ht : |t| ≤ maxTime) :
    ∃ s : String, toISOString ⟨some t⟩ = .ok s
      ∧ parseDataFromIso8601 H s = .ok ⟨some t⟩
      ∧ ∀ d : JSDate, parseDataFromIso8601 H s = .ok d → toISOString d = .ok s := by
  have hp : parseDataFromIso8601 H (String.mk (isoChars t)) = .ok ⟨some t⟩ := by
    unfold parseDataFromIso8601 newDateOfString
    rw [dateParse_isoChars H t ht, TimeClip_valid t ht]
  refine ⟨String.mk (isoChars t), rfl, hp, ?_⟩
  intro d hd
  rw [hp] at hd
  rw [← Except.ok.inj hd]
  rfl

/-- Witness of `parseDataFromIso8601_roundtrip`: the last instant of the year
-1, whose ISO string has an expanded year. -/
theorem parseDataFromIso8601_roundtrip_witness :
    |(-62167219200001 : Int)| ≤ maxTime
    ∧ toISOString ⟨some (-62167219200001)⟩ = .ok "-000001-12-31T23:59:59.999Z"
    ∧ ∃ s : String, toISOString ⟨some (-62167219200001)⟩ = .ok s
      ∧ parseDataFromIso8601 utcHost s = .ok ⟨some (-62167219200001)⟩
      ∧ ∀ d : JSDate, parseDataFromIso8601 utcHost s = .ok d → toISOString d = .ok s :=
  ⟨by decide, by rfl, parseDataFromIso8601_roundtrip utcHost (-62167219200001) (by decide)⟩

/-! ## Claim C9: `isLeapYear` and the environment -/

/-- Claim C9, counterexample. At the instant 2016-12-31T23:30:00Z `isLeapYear`
returns true on a host in the UTC zone (local year 2016) and false on a host
one hour east of it (local year 2017). -/
theorem isLeapYear_depends_on_zone :
    isLeapYear utcHost (some 1483227000000) = true
    ∧ isLeapYear plusOneHost (some 1483227000000) = false
    ∧ toISOString ⟨some 1483227000000⟩ = .ok "2016-12-31T23:30:00.000Z" := by
  refine ⟨by decide, by decide, by rfl⟩

/-- Claim C9, amended. `isLeapYear` depends on the instant and on the
environment only through the local calendar year: two evaluations, on any two
hosts and dates, for which `getFullYear` gives the same year return the same
boolean. -/
theorem isLeapYear_local_year (H1 H2 : Host) (d1 d2 : TimeValue)
    (h : getFullYear H1 (newDate d1) = getFullYear H2 (newDate d2)) :
    isLeapYear H1 d1 = isLeapYear H2 d2 := by
  unfold isLeapYear
  simp only [h]

/-- Witness of `isLeapYear_local_year`: 2016-06-15T12:00:00Z lies in the
local year 2016 both in the UTC zone and one hour east of it. -/
theorem isLeapYear_local_year_witness :
    getFullYear utcHost (newDate (some 1465992000000))
      = getFullYear plusOneHost (newDate (some 1465992000000))
    ∧ isLeapYear utcHost (some 1465992000000)
      = isLeapYear plusOneHost (some 1465992000000) :=
  ⟨by decide,
    isLeapYear_local_year utcHost plusOneHost (some 1465992000000) (some 1465992000000)
      (by decide)⟩

/-! ## Claim C11: `timeSpanToString` on a span shorter than a day -/

/-- Claim C11. For valid instants with `0 ≤ d = end - start < 86400000`,
`timeSpanToString` returns the 12-character string `HH:mm:ss.sss` with
`HH = floor(d / 3600000)`, `mm = floor(d / 60000) mod 60`,
`ss = floor(d / 1000) mod 60`, `sss = d mod 1000`, padded with zeros to the
widths 2, 2, 2 and 3; the five spans of the docstring, from 10:00:00 on
1 February 2000, give the five strings of the docstring. -/
theorem timeSpanToString_within_day (s e : Int) (hs : |s| ≤ maxTime) (he : |e| ≤ maxTime)
    (h0 : 0 ≤ e - s) (h1 : e - s < 86400000) :
    timeSpanToString (some s) (some e) =
      .ok (hmsString ((e - s) / 3600000).toNat ((e - s) / 60000 % 60).toNat
        ((e - s) / 1000 % 60).toNat ((e - s) % 1000).toNat)
    ∧ (hmsString ((e - s) / 3600000).toNat ((e - s) / 60000 % 60).toNat
        ((e - s) / 1000 % 60).toNat ((e - s) % 1000).toNat).length = 12
    ∧ timeSpanToString (newDateOfFields utcHost 2000 1 1 10 0 0 0).tv
        (newDateOfFields utcHost 2000 1 1 11 0 0 0).tv = .ok "01:00:00.000"
    ∧ timeSpanToString (newDateOfFields utcHost 2000 1 1 10 0 0 0).tv
        (newDateOfFields utcHost 2000 1 1 10 30 0 0).tv = .ok "00:30:00.000"
    ∧ timeSpanToString (newDateOfFields utcHost 2000 1 1 10 0 0 0).tv
        (newDateOfFields utcHost 2000 1 1 10 0 20 0).tv = .ok "00:00:20.000"
    ∧ timeSpanToString (newDateOfFields utcHost 2000 1 1 10 0 0 0).tv
        (newDateOfFields utcHost 2000 1 1 10 0 0 250).tv = .ok "00:00:00.250"
    ∧ timeSpanToString (newDateOfFields utcHost 2000 1 1 10 0 0 0).tv
        (newDateOfFields utcHost 2000 1 1 15 20 10 453).tv = .ok "05:20:10.453" := by
  refine ⟨?_, hmsString_length _ _ _ _, by rfl, by rfl, by rfl, by rfl, by rfl⟩
  have e1 : (e - s) / 3600000 = (e - s) / 3600000 % 24 := by omega
  rw [e1]
  exact timeSpanToString_fields s e hs he (by omega) (by omega)

/-- Witness of `timeSpanToString_within_day`: from 10:00:00 to 15:20:10.453 on
1 February 2000. -/
theorem timeSpanToString_within_day_witness :
    |(949399200000 : Int)| ≤ maxTime ∧ |(949418410453 : Int)| ≤ maxTime
    ∧ (0 : Int) ≤ 949418410453 - 949399200000
    ∧ (949418410453 : Int) - 949399200000 < 86400000
    ∧ timeSpanToString (some 949399200000) (some 949418410453) =
      .ok (hmsString (((949418410453 : Int) - 949399200000) / 3600000).toNat
        (((949418410453 : Int) - 949399200000) / 60000 % 60).toNat
        (((949418410453 : Int) - 949399200000) / 1000 % 60).toNat
        (((949418410453 : Int) - 949399200000) % 1000).toNat) :=
  ⟨by decide, by decide, by decide, by decide,
    (timeSpanToString_within_day 949399200000 949418410453 (by decide) (by decide)
      (by decide) (by decide)).1⟩

/-! ## Claim C12: `timeSpanToString` on a difference outside the range of dates -/

/-- Claim C12, the code at the failing input. With start at -8.64e15 ms and
end at +8.64e15 ms, both valid instants, the difference 1.728e16 ms is not a
time value, the date built from it is invalid, and `timeSpanToString` raises
the `RangeError` of `toISOString` instead of returning a string. -/
theorem timeSpanToString_raises :
    newDate (some (-8640000000000000)) = ⟨some (-8640000000000000)⟩
    ∧ newDate (some 8640000000000000) = ⟨some 8640000000000000⟩
    ∧ newDate (numSub (some 8640000000000000) (some (-8640000000000000))) = ⟨none⟩
    ∧ timeSpanToString (some (-8640000000000000)) (some 8640000000000000)
        = .error .rangeError := by
  refine ⟨by decide, by decide, by decide, by rfl⟩

/-! ## Claim C13: `timeSpanToString` rolls over at whole days -/

/-- Claim C13. For valid instants with `d = end - start ≥ 0` and
`d + 86400000 < 253402300800000`, a span of `d + 86400000` ms between valid
instants is rendered as the span of `d` ms; more generally two spans in
`0 ≤ d < 253402300800000` with the same remainder modulo 86400000 are
rendered alike, and the hour field of the result is at most 23. -/
theorem timeSpanToString_day_periodic (s e s2 e2 : Int) (hs : |s| ≤ maxTime)
    (he : |e| ≤ maxTime) (hs2 : |s2| ≤ maxTime) (he2 : |e2| ≤ maxTime)
    (h0 : 0 ≤ e - s) (h1 : e - s + 86400000 < 253402300800000) :
    (e2 - s2 = e - s + 86400000 →
      timeSpanToString (some s2) (some e2) = timeSpanToString (some s) (some e))
    ∧ (0 ≤ e2 - s2 → e2 - s2 < 253402300800000 →
      (e2 - s2) % 86400000 = (e - s) % 86400000 →
      timeSpanToString (some s2) (some e2) = timeSpanToString (some s) (some e))
    ∧ ∃ hh mm ss sss : Nat, hh ≤ 23 ∧ mm ≤ 59 ∧ ss ≤ 59 ∧ sss ≤ 999
        ∧ timeSpanToString (some s) (some e) = .ok (hmsString hh mm ss sss) := by
  have key : ∀ a b : Int, |a| ≤ maxTime → |b| ≤ maxTime → 0 ≤ b - a →
      b - a < 253402300800000 → (b - a) % 86400000 = (e - s) % 86400000 →
      timeSpanToString (some a) (some b) = timeSpanToString (some s) (some e) := by
    intro a b ha hb hab0 hab1 hmod
    rw [timeSpanToString_fields a b ha hb (by omega) hab1,
      timeSpanToString_fields s e hs he (by omega) (by omega)]
    unfold HourFromTime MinFromTime SecFromTime msFromTime msPerHour msPerMinute msPerSecond
    have e1 : (b - a) / 3600000 % 24 = (e - s) / 3600000 % 24 := by omega
    have e2 : (b - a) / 60000 % 60 = (e - s) / 60000 % 60 := by omega
    have e3 : (b - a) / 1000 % 60 = (e - s) / 1000 % 60 := by omega
    have e4 : (b - a) % 1000 = (e - s) % 1000 := by omega
    rw [e1, e2, e3, e4]
  refine ⟨fun h => key s2 e2 hs2 he2 (by omega) (by omega) (by omega),
    fun h2 h3 h4 => key s2 e2 hs2 he2 h2 h3 h4, ?_⟩
  refine ⟨_, _, _, _, ?_, ?_, ?_, ?_,
    timeSpanToString_fields s e hs he (by omega) (by omega)⟩
  · unfold HourFromTime msPerHour; omega
  · unfold MinFromTime msPerMinute; omega
  · unfold SecFromTime msPerSecond; omega
  · unfold msFromTime msPerSecond; omega

/-- Witness of `timeSpanToString_day_periodic`: spans of 1 h 20 min 10.453 s
and of one day more, from 10:00:00 on 1 February 2000. -/
theorem timeSpanToString_day_periodic_witness :
    |(949399200000 : Int)| ≤ maxTime ∧ |(949404010453 : Int)| ≤ maxTime
    ∧ |(949490410453 : Int)| ≤ maxTime
    ∧ (0 : Int) ≤ 949404010453 - 949399200000
    ∧ (949404010453 : Int) - 949399200000 + 86400000 < 253402300800000
    ∧ (949490410453 : Int) - 949399200000 = 949404010453 - 949399200000 + 86400000
    ∧ timeSpanToString (some 949399200000) (some 949490410453)
        = timeSpanToString (some 949399200000) (some 949404010453)
    ∧ timeSpanToString (some 949399200000) (some 949404010453) = .ok "01:20:10.453" :=
  ⟨by decide, by decide, by decide, by decide, by decide, by decide,
    (timeSpanToString_day_periodic 949399200000 949404010453 949399200000 949490410453
      (by decide) (by decide) (by decide) (by decide) (by decide) (by decide)).1 (by decide),
    by rfl⟩

/-! ## Claim C14: the two parsing functions are the same function -/

/-- Claim C14. On every host and every text `parseDataFromRfc2822` and
`parseDataFromIso8601` return the same result; so the ISO string of the
docstring is read by `parseDataFromRfc2822`, and the RFC 2822 string of the
docstring given to `parseDataFromIso8601` yields what the host makes of it. -/
theorem parse_functions_agree (H : Host) (s : String) :
    parseDataFromRfc2822 H s = parseDataFromIso8601 H s
    ∧ parseDataFromRfc2822 H "2016-01-19T08:07:37Z" = .ok ⟨some 1453190857000⟩
    ∧ parseDataFromIso8601 H "Tue, 26 Jan 2016 13:48:02 GMT"
        = .ok ⟨TimeClip (H.parseImpl "Tue, 26 Jan 2016 13:48:02 GMT")⟩ := by
  refine ⟨rfl, by rfl, ?_⟩
  exact congrArg Except.ok (newDateOfString_host H 'T' "ue, 26 Jan 2016 13:48:02 GMT".data
    (by decide) (by decide) (by decide))

/-! ## Claim C15: twelve-hour symmetry of `angleBetweenClockHands` -/

/-- Claim C15. For two valid instants with the same UTC minute `m` whose UTC
hours are `h` and `h + 12` (so `h` is in 0..11), `angleBetweenClockHands`
returns the same value; this covers `h = 0` against `h = 12`, as at 00:30 and
12:30, where the result is 165 degrees both times. -/
theorem angleBetweenClockHands_twelve_hours {K : Type} [LinearOrderedField K] (pi : K)
    (t1 t2 h m : Int) (ht1 : |t1| ≤ maxTime) (ht2 : |t2| ≤ maxTime)
    (hh1 : getUTCHours ⟨some t1⟩ = some h) (hm1 : getUTCMinutes ⟨some t1⟩ = some m)
    (hh2 : getUTCHours ⟨some t2⟩ = some (h + 12))
    (hm2 : getUTCMinutes ⟨some t2⟩ = some m) :
    angleBetweenClockHands pi (some t1) = angleBetweenClockHands pi (some t2)
    ∧ angleBetweenClockHands pi (dateUTC 2016 3 5 0 30) = some (165 * (pi / 180))
    ∧ angleBetweenClockHands pi (dateUTC 2016 3 5 12 30) = some (165 * (pi / 180)) := by
  simp only [getUTCHours, getUTCMinutes, Option.map_some', Option.some.injEq] at hh1 hm1 hh2 hm2
  refine ⟨?_, ?_, ?_⟩
  · rw [angleBetweenClockHands_degrees pi t1 ht1, angleBetweenClockHands_degrees pi t2 ht2,
      hh1, hm1, hh2, hm2, Int.add_emod_self]
  · rw [show dateUTC 2016 3 5 0 30 = some 1459816200000 by decide,
      angleBetweenClockHands_degrees pi _ (by decide),
      show HourFromTime 1459816200000 = 0 by decide,
      show MinFromTime 1459816200000 = 30 by decide]
    norm_num
    ring
  · rw [show dateUTC 2016 3 5 12 30 = some 1459859400000 by decide,
      angleBetweenClockHands_degrees pi _ (by decide),
      show HourFromTime 1459859400000 = 12 by decide,
      show MinFromTime 1459859400000 = 30 by decide]
    norm_num
    ring

/-- Witness of `angleBetweenClockHands_twelve_hours`: 09:15 and 21:15 UTC on
5 April 2016, over the real numbers. -/
theorem angleBetweenClockHands_twelve_hours_witness :
    |(1459847700000 : Int)| ≤ maxTime ∧ |(1459890900000 : Int)| ≤ maxTime
    ∧ getUTCHours ⟨some 1459847700000⟩ = some 9
    ∧ getUTCMinutes ⟨some 1459847700000⟩ = some 15
    ∧ getUTCHours ⟨some 1459890900000⟩ = some (9 + 12)
    ∧ getUTCMinutes ⟨some 1459890900000⟩ = some 15
    ∧ angleBetweenClockHands Real.pi (some 1459847700000)
        = angleBetweenClockHands Real.pi (some 1459890900000) :=
  ⟨by decide, by decide, by decide, by decide, by decide, by decide,
    (angleBetweenClockHands_twelve_hours Real.pi 1459847700000 1459890900000 9 15
      (by decide) (by decide) (by decide) (by decide) (by decide) (by decide)).1⟩

/-! ## Claim C16: when the hands coincide and when they are opposite -/

/-- Claim C16. On a valid instant with UTC hour `h` and UTC minute `m`, and
with `pi` different from 0, `angleBetweenClockHands` returns 0 exactly when
`m = 0` and `h mod 12 = 0`, and the degree value it computes is 180 exactly
when `m = 0` and `h mod 12 = 6`. -/
theorem angleBetweenClockHands_zero_iff {K : Type} [LinearOrderedField K] (pi : K)
    (hpi : pi ≠ 0) (t h m : Int) (ht : |t| ≤ maxTime)
    (hh : getUTCHours ⟨some t⟩ = some h) (hm : getUTCMinutes ⟨some t⟩ = some m) :
    ∃ deg : K,
      deg = min |(((h % 12 : Int) : K) * 30 + (m : K) * (1 / 2)) - (m : K) * 6|
        (360 - |(((h % 12 : Int) : K) * 30 + (m : K) * (1 / 2)) - (m : K) * 6|)
      ∧ angleBetweenClockHands pi (some t) = some (pi / 180 * deg)
      ∧ (angleBetweenClockHands pi (some t) = some 0 ↔ m = 0 ∧ h % 12 = 0)
      ∧ (deg = 180 ↔ m = 0 ∧ h % 12 = 6) := by
  simp only [getUTCHours, getUTCMinutes, Option.map_some', Option.some.injEq] at hh hm
  subst hh hm
  have r1 := HourFromTime_range t
  have r2 := MinFromTime_range t
  have key := angleBetweenClockHands_degrees pi t ht
  have hc := hands_coincide_iff (HourFromTime t % 12) (MinFromTime t) (by omega) r2
  refine ⟨_, rfl, key, ?_, ?_⟩
  · rw [key, degrees_half_integer, Option.some.injEq, ← hc.1]
    have h180 : pi / 180 ≠ 0 := div_ne_zero hpi (by norm_num)
    rw [mul_eq_zero, or_iff_right h180, div_eq_zero_iff, or_iff_left (by norm_num),
      Int.cast_eq_zero]
  · rw [degrees_half_integer, ← hc.2, div_eq_iff (by norm_num)]
    constructor
    · intro h
      have h2 : ((min |60 * (HourFromTime t % 12) - 11 * MinFromTime t|
          (720 - |60 * (HourFromTime t % 12) - 11 * MinFromTime t|) : Int) : K)
          = ((360 : Int) : K) := by
        rw [h]; norm_num
      exact_mod_cast h2
    · intro h
      rw [h]; norm_num

/-- Witness of `angleBetweenClockHands_zero_iff`: 18:00 UTC on 5 April 2016,
over the real numbers. -/
theorem angleBetweenClockHands_zero_iff_witness :
    Real.pi ≠ 0 ∧ |(1459879200000 : Int)| ≤ maxTime
    ∧ getUTCHours ⟨some 1459879200000⟩ = some 18
    ∧ getUTCMinutes ⟨some 1459879200000⟩ = some 0
    ∧ ∃ deg : ℝ, angleBetweenClockHands Real.pi (some 1459879200000)
          = some (Real.pi / 180 * deg)
        ∧ (angleBetweenClockHands Real.pi (some 1459879200000) = some 0
            ↔ (0 : Int) = 0 ∧ (18 : Int) % 12 = 0)
        ∧ (deg = 180 ↔ (0 : Int) = 0 ∧ (18 : Int) % 12 = 6) :=
  ⟨Real.pi_ne_zero, by decide, by decide, by decide,
    match angleBetweenClockHands_zero_iff Real.pi Real.pi_ne_zero 1459879200000 18 0
      (by decide) (by decide) (by decide) with
    | ⟨deg, _, h2, h3, h4⟩ => ⟨deg, h2, h3, h4⟩⟩

/-! ## Claim C17: the leap-year rule has period 400 years -/

/-- Claim C17. The rule that `isLeapYear` applies to the local year gives the
same result for the years `Y` and `Y + 400`, for every integer `Y`, and among
the 400 consecutive years `Y, Y + 1, ..., Y + 399` it marks exactly 97. -/
theorem leapYearRule_period (Y : Int) :
    leapYearRule (Y + 400) = leapYearRule Y
    ∧ ((Finset.range 400).filter (fun i : Nat => leapYearRule (Y + i) = true)).card = 97
    ∧ ∀ (H : Host) (date : TimeValue),
        isLeapYear H date = (getFullYear H (newDate date)).elim false leapYearRule := by
  refine ⟨leapYearRule_add_400 Y, leap_count Y, ?_⟩
  intro H date
  rw [isLeapYear_eq_leapYearRule]
  cases getFullYear H (newDate date) <;> rfl

end DateTasks
